import Mathlib

/-!
Verification of the docdb-autoscaler reconciliation engine.

The Go sources are shallowly embedded as follows:
* `float64` values (metric samples, target values, the capacity calculator's
  intermediate values) are modelled by exact rationals `ℚ`; the Go code only
  ever compares, divides, multiplies, floors and ceils such values, and the
  final `int(...)` conversion is applied to an integral float, so `ℚ` with
  `Int.floor`/`Int.ceil` is an exact model away from overflow/NaN corners.
* Go `int` is modelled by `Int`, Go `string` by `String` (the identifiers at
  stake are ASCII, so Go's byte-indexed operations coincide with the
  character-based ones used here).
* The AWS clients (`DocDBAPI`, `RDSAPI`, `CloudWatchAPI`) are modelled by an
  explicit environment `Env` of response values, exactly like the gomock
  mocks in `autoscaling_test.go`: each describe/list/create/delete call is a
  field of `Env`, and fallible calls return `Except String`.
* Side effects (CreateDBInstance, DeleteDBInstance, AddTagsToResource and
  notifier calls) are recorded as an `Event` trace returned by each
  function; error returns abort the trace just as Go's early `return err`
  aborts the remaining calls.
-/

set_option autoImplicit false

namespace DocDBAutoscaler

/-! ### Identifier sanitization (`sanitizeDBInstanceIdentifier` and helpers) -/

/-- `isLetter` from the source: ASCII letter test on the leading byte. -/
def isLetter (ch : Char) : Bool :=
  ('A' ≤ ch && ch ≤ 'Z') || ('a' ≤ ch && ch ≤ 'z')

/-- `isValidDBInstanceIdentifierChar` from the source. -/
def isValidDBInstanceIdentifierChar (ch : Char) : Bool :=
  ('A' ≤ ch && ch ≤ 'Z') || ('a' ≤ ch && ch ≤ 'z') ||
  ('0' ≤ ch && ch ≤ '9') || ch = '-'

/-- Go's `strings.ReplaceAll(s, "--", "-")`: a single left-to-right
non-overlapping pass replacing each `"--"` occurrence by `"-"`. -/
def replaceDoubleHyphen : List Char → List Char
  | [] => []
  | [c] => [c]
  | c1 :: c2 :: rest =>
    if c1 = '-' && c2 = '-' then '-' :: replaceDoubleHyphen rest
    else c1 :: replaceDoubleHyphen (c2 :: rest)

/-- The left half of Go's `strings.Trim(s, "-")`. -/
def trimLeftHyphens : List Char → List Char
  | [] => []
  | c :: rest => if c = '-' then trimLeftHyphens rest else c :: rest

/-- Go's `strings.TrimRight(s, "-")` (also the right half of `strings.Trim`). -/
def trimRightHyphens : List Char → List Char
  | [] => []
  | c :: rest =>
    match trimRightHyphens rest with
    | [] => if c = '-' then [] else [c]
    | r => c :: r

/-- `sanitizeDBInstanceIdentifier` from the source, on character lists.
Go indexes `identifier[0]` and panics on the empty string; the engine only
ever calls it on non-empty identifiers, and the empty case is mapped to the
empty list here. -/
def sanitizeChars (identifier : List Char) : List Char :=
  -- Ensure it starts with a letter
  let identifier :=
    match identifier with
    | [] => []
    | c :: rest => if isLetter c then c :: rest else 'a' :: c :: rest
  -- Remove invalid characters
  let validIdentifier :=
    identifier.map (fun ch => if isValidDBInstanceIdentifierChar ch then ch else '-')
  -- Remove consecutive hyphens (a single ReplaceAll pass)
  let validIdentifier := replaceDoubleHyphen validIdentifier
  -- Trim any leading or trailing hyphens
  trimRightHyphens (trimLeftHyphens validIdentifier)

/-- `sanitizeDBInstanceIdentifier` on `String`. -/
def sanitizeDBInstanceIdentifier (identifier : String) : String :=
  (sanitizeChars identifier.toList).asString

/-- The identifier-generation block shared verbatim by `AddReplicas`
(`suffixWord = "reader"`) and `AddScheduledReplicas`
(`suffixWord = "scheduler"`): take the last 9 characters of the
`time.Now().UnixNano()` decimal string, assemble
`{clusterID}-{suffixWord}-{uniqueID}`, truncate to 63 characters trimming a
trailing hyphen when truncation occurred, then sanitize. -/
def generateReplicaIdentifierChars
    (clusterID suffixWord timestamp : List Char) : List Char :=
  let uniqueID := timestamp.drop (timestamp.length - 9)
  let base := clusterID ++ '-' :: (suffixWord ++ '-' :: uniqueID)
  let base := if 63 < base.length then trimRightHyphens (base.take 63) else base
  sanitizeChars base

/-- `generateReplicaIdentifierChars` on `String`. -/
def makeReplicaIdentifier (clusterID suffixWord timestamp : String) : String :=
  (generateReplicaIdentifierChars
    clusterID.toList suffixWord.toList timestamp.toList).asString

/-! ### Data model -/

/-- A resource tag (`docdbTypes.Tag`). -/
structure Tag where
  key : String
  value : String
deriving DecidableEq, Repr

/-- The fields of `docdbTypes.DBInstance` the engine reads. -/
structure DBInstance where
  dbInstanceIdentifier : String
  dbInstanceArn : String
  dbInstanceStatus : String
  dbInstanceClass : String
deriving DecidableEq, Repr

/-- The fields of `rdsTypes.DBClusterMember` the engine reads. -/
structure DBClusterMember where
  dbInstanceIdentifier : String
  isClusterWriter : Bool
deriving DecidableEq, Repr

/-- The configuration fields of the `DocumentDB` struct (the client handles
and logger are replaced by the explicit `Env` below). -/
structure DocumentDB where
  clusterID : String
  minCapacity : Int
  maxCapacity : Int
  metricName : String
  targetValue : ℚ
  scaleInCooldown : Int
  scaleOutCooldown : Int
  instanceType : String
  dryRun : Bool
  scheduledScaling : Bool
  scheduleNumberReplicas : Int

/-- One invocation's mock AWS control plane, mirroring the gomock setup of
`autoscaling_test.go`: the responses the directory and metric store give
during this invocation.
* `instancesResult` — `DescribeDBInstances` (the cluster's instance list);
* `membersResult` — `DescribeDBClusters` (the first cluster's member list;
  an API error and the "no clusters found" case are both `.error`);
* `tagsOf` — `ListTagsForResource`, keyed by instance ARN;
* `metricOf` — `GetMetricStatistics` for a reader, already reduced to the
  latest datapoint's average; an API error and the "no datapoints" case are
  both `.error`;
* `tsStream i` — the `fmt.Sprintf("%d", time.Now().UnixNano())` string
  observed by the i-th iteration of a create loop;
* `createResult` — `CreateDBInstance` keyed by the submitted identifier,
  returning the new instance's ARN (a nil ARN in the response is folded
  into `.error`, matching the explicit nil check in the source);
* `deleteResult` — `DeleteDBInstance` keyed by the submitted identifier. -/
structure Env where
  instancesResult : Except String (List DBInstance)
  membersResult : Except String (List DBClusterMember)
  tagsOf : String → Except String (List Tag)
  metricOf : String → Except String ℚ
  tsStream : Nat → String
  createResult : String → Except String String
  deleteResult : String → Except String Unit

/-- The externally visible calls a reconciliation issues: the three mutating
directory calls and the notifier calls. `failureNote` stands for the
notifier's `SendFailureNotification` entry point. -/
inductive Event where
  | createInstance (clusterId id instClass : String)
  | deleteInstance (id : String)
  | addTags (arn : String) (tags : List Tag)
  | scaleOutNote (clusterId : String) (n : Int)
  | scaleInNote (clusterId : String) (n : Int)
  | failureNote (clusterId errorMessage action : String)
deriving DecidableEq, Repr

/-! ### Capacity calculator -/

/-- `CalculateDesiredCapacity` from the source. The float comparisons and
the trailing `int(...)` conversion act on integral values once
`math.Ceil`/`math.Floor` has been applied, so the rounding result is kept
as `Int` directly. -/
def CalculateDesiredCapacity (d : DocumentDB)
    (currentMetricValue : ℚ) (currentCapacity : Int) : Int :=
  let proportionalCapacity : ℚ :=
    currentMetricValue / d.targetValue * (currentCapacity : ℚ)
  let desiredCapacity : Int :=
    if (currentCapacity : ℚ) < proportionalCapacity then
      -- Scaling Out: Round up to ensure sufficient capacity
      ⌈proportionalCapacity⌉
    else
      -- Scaling In: Round down to reduce replicas conservatively
      ⌊proportionalCapacity⌋
  -- Enforce minimum and maximum bounds
  if desiredCapacity < d.minCapacity then d.minCapacity
  else if d.maxCapacity < desiredCapacity then d.maxCapacity
  else desiredCapacity

/-! ### Topology resolver -/

/-- `GetWriterInstanceIdentifier` from the source: first member flagged as
cluster writer, else an error. -/
def GetWriterInstanceIdentifier (d : DocumentDB) (env : Env) :
    Except String String :=
  match env.membersResult with
  | .error e => .error e
  | .ok members =>
    match members.find? (·.isClusterWriter) with
    | some m => .ok m.dbInstanceIdentifier
    | none => .error ("writer instance not found in cluster " ++ d.clusterID)

/-- `GetWriterInstance` from the source. -/
def GetWriterInstance (d : DocumentDB) (env : Env) :
    Except String DBInstance :=
  match env.instancesResult with
  | .error e => .error e
  | .ok dbInstances =>
    match GetWriterInstanceIdentifier d env with
    | .error e => .error e
    | .ok writerInstanceIdentifier =>
      match dbInstances.find?
          (·.dbInstanceIdentifier = writerInstanceIdentifier) with
      | some inst => .ok inst
      | none => .error "writer instance not found"

/-- `GetReaderInstances` from the source: every instance that is not the
writer, in directory order. -/
def GetReaderInstances (d : DocumentDB) (env : Env) :
    Except String (List DBInstance) :=
  match env.instancesResult with
  | .error e => .error e
  | .ok dbInstances =>
    match GetWriterInstanceIdentifier d env with
    | .error e => .error e
    | .ok writerInstanceIdentifier =>
      .ok (dbInstances.filter
        (fun inst => inst.dbInstanceIdentifier ≠ writerInstanceIdentifier))

/-- `GetCurrentCapacity` from the source. -/
def GetCurrentCapacity (d : DocumentDB) (env : Env) : Except String Int :=
  match GetReaderInstances d env with
  | .error e => .error e
  | .ok readerInstances => .ok (readerInstances.length : Int)

/-- The metric-accumulation loop of `GetCurrentMetricValue`: sum the latest
datapoint average of each reader, failing on the first reader whose metric
query fails (or returns no datapoints, folded into `.error` by `metricOf`). -/
def sumReaderMetrics (env : Env) : List DBInstance → ℚ →
    Except String ℚ
  | [], acc => .ok acc
  | inst :: rest, acc =>
    match env.metricOf inst.dbInstanceIdentifier with
    | .error e => .error e
    | .ok v => sumReaderMetrics env rest (acc + v)

/-- `GetCurrentMetricValue` from the source: unweighted mean of the latest
datapoint average over all readers; fails when there are no readers. -/
def GetCurrentMetricValue (d : DocumentDB) (env : Env) : Except String ℚ :=
  match GetReaderInstances d env with
  | .error e => .error e
  | .ok readerInstances =>
    if readerInstances.length = 0 then .error "no reader instances found"
    else
      match sumReaderMetrics env readerInstances 0 with
      | .error e => .error e
      | .ok totalMetric => .ok (totalMetric / (readerInstances.length : ℚ))

/-! ### Ownership tagger -/

/-- `HasAutoscalerTag` from the source: the metric-mode ownership tag
`docdb-autoscaler-created = "true"`. -/
def HasAutoscalerTag (env : Env) (instance_ : DBInstance) :
    Except String Bool :=
  match env.tagsOf instance_.dbInstanceArn with
  | .error e => .error e
  | .ok tagList =>
    .ok (tagList.any (fun t =>
      t.key = "docdb-autoscaler-created" && t.value = "true"))

/-- `HasSchedulerTag` from the source: the schedule-mode ownership tag
`docdb-autoscaler-scheduler = "true"`. -/
def HasSchedulerTag (env : Env) (instance_ : DBInstance) :
    Except String Bool :=
  match env.tagsOf instance_.dbInstanceArn with
  | .error e => .error e
  | .ok tagList =>
    .ok (tagList.any (fun t =>
      t.key = "docdb-autoscaler-scheduler" && t.value = "true"))

/-! ### Instance provisioner -/

/-- The create loop shared by `AddReplicas` and `AddScheduledReplicas`:
iteration `i` generates an identifier from `env.tsStream i`, and (outside
dry-run) issues the create call, errors out if it fails, and then issues
the best-effort tag write, whose own failure is only logged and so does not
appear in the control flow. `fuel` counts the remaining iterations. -/
def addReplicasLoop (d : DocumentDB) (env : Env)
    (instanceClass suffixWord tagKey : String) :
    Nat → Nat → Except String (List Event)
  | _, 0 => .ok []
  | i, fuel + 1 =>
    let baseIdentifier :=
      makeReplicaIdentifier d.clusterID suffixWord (env.tsStream i)
    if d.dryRun then
      -- "[Dry Run] Would add read replica": log only
      addReplicasLoop d env instanceClass suffixWord tagKey (i + 1) fuel
    else
      match env.createResult baseIdentifier with
      | .error e => .error e
      | .ok instanceArn =>
        match addReplicasLoop d env instanceClass suffixWord tagKey
            (i + 1) fuel with
        | .error e =>
          -- a later iteration failed: the calls of this iteration stand,
          -- but the Go function returns the error and the trace is cut
          .error e
        | .ok rest =>
          .ok (Event.createInstance d.clusterID baseIdentifier instanceClass
            :: Event.addTags instanceArn [⟨tagKey, "true"⟩] :: rest)

/-- `AddReplicas` from the source (metric mode): resolve the writer first,
pick the instance class (explicit override or the writer's class), then run
the create loop with suffix `reader` and the metric-mode tag. -/
def AddReplicas (d : DocumentDB) (env : Env) (replicasToAdd : Int) :
    Except String (List Event) :=
  match GetWriterInstance d env with
  | .error e => .error e
  | .ok writerInstance =>
    let instanceClass :=
      if d.instanceType ≠ "" then d.instanceType
      else writerInstance.dbInstanceClass
    addReplicasLoop d env instanceClass "reader" "docdb-autoscaler-created"
      0 replicasToAdd.toNat

/-- `AddScheduledReplicas` from the source (schedule mode): the writer is
only consulted when no explicit instance class is configured; the loop runs
with suffix `scheduler` and the schedule-mode tag. -/
def AddScheduledReplicas (d : DocumentDB) (env : Env) (replicasToAdd : Int) :
    Except String (List Event) :=
  let classResult : Except String String :=
    if d.instanceType ≠ "" then .ok d.instanceType
    else
      match GetWriterInstance d env with
      | .error e => .error e
      | .ok writerInstance => .ok writerInstance.dbInstanceClass
  match classResult with
  | .error e => .error e
  | .ok instanceClass =>
    addReplicasLoop d env instanceClass "scheduler"
      "docdb-autoscaler-scheduler" 0 replicasToAdd.toNat

/-- The candidate scan of `RemoveReplica`: first instance that is not the
writer, whose tag lookup succeeds, that is in `available` status and that
carries the autoscaler tag. A failing tag lookup is logged and the instance
skipped (`continue` in the source); a non-`available` instance is skipped;
the first match breaks the loop. -/
def findRemovalCandidate (env : Env) (writerInstanceIdentifier : String) :
    List DBInstance → Option DBInstance
  | [] => none
  | instance_ :: rest =>
    if instance_.dbInstanceIdentifier = writerInstanceIdentifier then
      findRemovalCandidate env writerInstanceIdentifier rest
    else
      match HasAutoscalerTag env instance_ with
      | .error _ => findRemovalCandidate env writerInstanceIdentifier rest
      | .ok hasTag =>
        if instance_.dbInstanceStatus ≠ "available" then
          findRemovalCandidate env writerInstanceIdentifier rest
        else if hasTag then some instance_
        else findRemovalCandidate env writerInstanceIdentifier rest

/-- `RemoveReplica` from the source (metric mode): remove at most the first
eligible instance; succeed doing nothing when none is eligible; skip the
delete call under dry-run. -/
def RemoveReplica (d : DocumentDB) (env : Env) :
    Except String (List Event) :=
  match env.instancesResult with
  | .error e => .error e
  | .ok dbInstances =>
    match GetWriterInstanceIdentifier d env with
    | .error e => .error e
    | .ok writerInstanceIdentifier =>
      match findRemovalCandidate env writerInstanceIdentifier dbInstances with
      | none => .ok []  -- "No autoscaler-created instances found to remove"
      | some instanceToRemove =>
        if d.dryRun then
          -- "[Dry Run] Would remove read replica": log only
          .ok []
        else
          match env.deleteResult instanceToRemove.dbInstanceIdentifier with
          | .error e => .error e
          | .ok _ =>
            .ok [Event.deleteInstance instanceToRemove.dbInstanceIdentifier]

/-- `RemoveScheduledReplicas` from the source: delete every handed-over
instance that is in `available` status (others are skipped), stopping at
the first delete failure; skip the delete calls under dry-run. -/
def RemoveScheduledReplicas (d : DocumentDB) (env : Env) :
    List DBInstance → Except String (List Event)
  | [] => .ok []
  | instance_ :: rest =>
    if instance_.dbInstanceStatus ≠ "available" then
      RemoveScheduledReplicas d env rest
    else if d.dryRun then
      -- "[Dry Run] Would remove scheduled read replica": log only
      RemoveScheduledReplicas d env rest
    else
      match env.deleteResult instance_.dbInstanceIdentifier with
      | .error e => .error e
      | .ok _ =>
        match RemoveScheduledReplicas d env rest with
        | .error e => .error e
        | .ok evs =>
          .ok (Event.deleteInstance instance_.dbInstanceIdentifier :: evs)

/-! ### Reconciler -/

/-- The MAX_CAPACITY/MIN_CAPACITY adjustment of the scale-out branch of
`ExecuteScheduledScalingAction`, with the source's early
"Desired capacity exceeds MAX_CAPACITY. No replicas to add." return
rendered as `none`:
`replicasToAdd := d.ScheduleNumberReplicas` is clamped to
`maxCapacity - len(readers)` when the desired capacity exceeds
MAX_CAPACITY (bailing out when that clamp is non-positive), and then
overridden to `minCapacity - len(readers)` when the *unadjusted* desired
capacity is below MIN_CAPACITY. -/
def scheduledScaleOutDelta (d : DocumentDB) (lenReaders : Int) : Option Int :=
  let replicasToAdd := d.scheduleNumberReplicas
  let desiredCapacity := lenReaders + replicasToAdd
  let replicasToAdd :=
    if d.maxCapacity < desiredCapacity then d.maxCapacity - lenReaders
    else replicasToAdd
  if d.maxCapacity < desiredCapacity ∧ replicasToAdd ≤ 0 then none
  else some (if desiredCapacity < d.minCapacity then d.minCapacity - lenReaders
    else replicasToAdd)

/-- The partition loop of `ExecuteScheduledScalingAction`: collect the
readers carrying the scheduler tag, propagating the first tag-lookup
failure (`return err` in the source). -/
def collectScheduled (env : Env) : List DBInstance →
    Except String (List DBInstance)
  | [] => .ok []
  | instance_ :: rest =>
    match HasSchedulerTag env instance_ with
    | .error e => .error e
    | .ok hasTag =>
      match collectScheduled env rest with
      | .error e => .error e
      | .ok l => .ok (if hasTag then instance_ :: l else l)

/-- `ExecuteScheduledScalingAction` from the source. Presence of any
schedule-owned reader triggers removal of all of them; otherwise
`ScheduleNumberReplicas` are added, adjusted by the MAX_CAPACITY clamp
(with an early no-op exit) and then by the MIN_CAPACITY adjustment, which
tests the *unadjusted* desired capacity. Notifier failures are only
logged, so the notification event is recorded unconditionally. -/
def ExecuteScheduledScalingAction (d : DocumentDB) (env : Env) :
    Except String (List Event) :=
  match GetReaderInstances d env with
  | .error e => .error e
  | .ok readerInstances =>
    match collectScheduled env readerInstances with
    | .error e => .error e
    | .ok scheduledInstances =>
      let currentScheduledReplicas : Int := scheduledInstances.length
      if 0 < currentScheduledReplicas then
        -- Scale In: Remove all scheduled instances
        match RemoveScheduledReplicas d env scheduledInstances with
        | .error e => .error e
        | .ok evs =>
          .ok (evs ++ [Event.scaleInNote d.clusterID currentScheduledReplicas])
      else
        -- Scale Out: Add scheduled replicas (`scheduledScaleOutDelta` holds
        -- the MAX_CAPACITY/MIN_CAPACITY adjustments and the early no-op exit)
        match scheduledScaleOutDelta d (readerInstances.length : Int) with
        | none => .ok []
        | some replicasToAdd =>
          match AddScheduledReplicas d env replicasToAdd with
          | .error e => .error e
          | .ok evs =>
            .ok (evs ++ [Event.scaleOutNote d.clusterID replicasToAdd])

/-- `ExecuteMetricBasedScalingAction` from the source: sample the metric and
capacity, compute the desired capacity, then scale out by the difference,
scale in by exactly one replica, or do nothing. Notifier failures are only
logged, so the notification event is recorded unconditionally. -/
def ExecuteMetricBasedScalingAction (d : DocumentDB) (env : Env) :
    Except String (List Event) :=
  match GetCurrentMetricValue d env with
  | .error e => .error e
  | .ok currentMetricValue =>
    match GetCurrentCapacity d env with
    | .error e => .error e
    | .ok currentCapacity =>
      let desiredCapacity :=
        CalculateDesiredCapacity d currentMetricValue currentCapacity
      if currentCapacity < desiredCapacity then
        -- Scale Out
        let replicasToAdd := desiredCapacity - currentCapacity
        match AddReplicas d env replicasToAdd with
        | .error e => .error e
        | .ok evs =>
          .ok (evs ++ [Event.scaleOutNote d.clusterID replicasToAdd])
      else if desiredCapacity < currentCapacity then
        -- Scale In: replicasToRemove := 1, the removal loop runs once
        match RemoveReplica d env with
        | .error e => .error e
        | .ok evs =>
          .ok (evs ++ [Event.scaleInNote d.clusterID 1])
      else
        -- No action needed
        .ok []

/-- `ExecuteScalingAction` from the source: dispatch on the mode flag. -/
def ExecuteScalingAction (d : DocumentDB) (env : Env) :
    Except String (List Event) :=
  if d.scheduledScaling then ExecuteScheduledScalingAction d env
  else ExecuteMetricBasedScalingAction d env

/-! ### Retrying executor and `processScaling` (the Lambda handler's core) -/

/-- What an `executeWithRetry` run did: its final result (the value of the
first successful attempt, or the aggregate error), the backoff sleeps
issued in order, and how many times the action was invoked. -/
structure RetryOutcome (α : Type) where
  result : Except String α
  sleeps : List Int
  calls : Nat

/-- The `for attempt := 1; attempt <= maxRetries` loop of
`executeWithRetry`. `fuel` is the number of remaining attempts; `backoff`
is in seconds (the source works in `time.Duration` with a 32-second cap).
After every failure — including the final one — the loop sleeps, then
doubles the backoff, capping it at 32. -/
def retryLoop {α : Type} (action : Nat → Except String α)
    (aggregateError : String) : Nat → Nat → Int → RetryOutcome α
  | 0, _, _ => ⟨.error aggregateError, [], 0⟩
  | fuel + 1, attempt, backoff =>
    match action attempt with
    | .ok a => ⟨.ok a, [], 1⟩
    | .error _ =>
      -- Wait before the next retry, then exponential backoff capped at 32s
      let nextBackoff := if 32 < backoff * 2 then 32 else backoff * 2
      let rest := retryLoop action aggregateError fuel (attempt + 1) nextBackoff
      ⟨rest.result, backoff :: rest.sleeps, rest.calls + 1⟩

/-- `executeWithRetry` from the source. `maxRetries` enters the aggregate
error message verbatim; a non-positive `maxRetries` means the loop body
never runs. The action receives the attempt number so that per-attempt
behaviour can be expressed; the Go closure takes only the context. -/
def executeWithRetry {α : Type} (action : Nat → Except String α)
    (maxRetries : Int) (initialBackoff : Int) : RetryOutcome α :=
  retryLoop action
    ("scaling action failed after " ++ toString maxRetries ++ " attempts")
    maxRetries.toNat 1 initialBackoff

/-- The parsed `ScalingMessage` carried inside an SNS record. -/
structure ScalingMessage where
  scalingType : String
  numberReplicas : Int
deriving DecidableEq, Repr

/-- `processScaling` from the Lambda handler, minus logging: an SNS message
overrides the autoscaler's mode and replica delta; the dry-run aggregation
counters are derived from the sign of `ScheduleNumberReplicas`; the scaling
action runs under `executeWithRetry`. The JSON-parse-failure exit is out of
scope here (the message arrives already parsed). -/
def processScaling (d : DocumentDB) (env : Env)
    (snsMessage : Option ScalingMessage) (maxRetries : Int)
    (initialBackoff : Int) : Int × Int × RetryOutcome (List Event) :=
  let d :=
    match snsMessage with
    | some scalingMessage =>
      { d with scheduledScaling := false,
               scheduleNumberReplicas := scalingMessage.numberReplicas }
    | none => d
  let replicasToAdd :=
    if 0 < d.scheduleNumberReplicas then d.scheduleNumberReplicas else 0
  let replicasToRemove :=
    if d.scheduleNumberReplicas < 0 then |d.scheduleNumberReplicas| else 0
  let outcome :=
    executeWithRetry (fun _ => ExecuteScalingAction d env)
      maxRetries initialBackoff
  (replicasToAdd, replicasToRemove, outcome)

/-! ### Trace bookkeeping -/

/-- Identifiers submitted to `CreateDBInstance` in a trace. -/
def createdIds : List Event → List String
  | [] => []
  | .createInstance _ id _ :: rest => id :: createdIds rest
  | _ :: rest => createdIds rest

/-- Identifiers submitted to `DeleteDBInstance` in a trace. -/
def deletedIds : List Event → List String
  | [] => []
  | .deleteInstance id :: rest => id :: deletedIds rest
  | _ :: rest => deletedIds rest

/-- Whether an event is a mutating directory call (create, delete or tag
write), as opposed to a notifier call. -/
def isMutatingDirectoryCall : Event → Bool
  | .createInstance _ _ _ => true
  | .deleteInstance _ => true
  | .addTags _ _ => true
  | _ => false

/-- The cluster's instance identifiers after a trace is applied to the
directory: each create registers its identifier, each delete removes the
matching identifier. -/
def applyEvents (ids : List String) : List Event → List String
  | [] => ids
  | .createInstance _ id _ :: rest => applyEvents (ids ++ [id]) rest
  | .deleteInstance id :: rest => applyEvents (ids.filter (· ≠ id)) rest
  | _ :: rest => applyEvents ids rest

/-- Reader count of an identifier list: everything that is not the writer. -/
def readerCount (writerId : String) (ids : List String) : Int :=
  ((ids.filter (· ≠ writerId)).length : Int)

/-- Whether a character list contains two consecutive hyphens. -/
def hasConsecutiveHyphens : List Char → Bool
  | '-' :: '-' :: _ => true
  | _ :: rest => hasConsecutiveHyphens rest
  | [] => false

/-- Whether a trace contains a call to the notifier's failure entry point. -/
def anyFailureNote : List Event → Bool
  | [] => false
  | .failureNote _ _ _ :: _ => true
  | _ :: rest => anyFailureNote rest

/-- The calls a retried invocation made visible: the successful attempt's
trace, or nothing when every attempt failed before reaching a call that is
recorded (as in the counterexamples below, where each attempt dies on the
very first describe call). -/
def emittedEvents (outcome : RetryOutcome (List Event)) : List Event :=
  match outcome.result with
  | .ok evs => evs
  | .error _ => []

/-- The backoff sleeps an always-failing run performs: one sleep after every
failed attempt, starting at `b` and doubling with a cap of 32. -/
def cappedBackoffSeq (b : Int) : Nat → List Int
  | 0 => []
  | n + 1 => b :: cappedBackoffSeq (if 32 < b * 2 then 32 else b * 2) n

/-- Modelled from the spec:
`desired = clamp(round(metric/target * current), min, max)` where round is
ceiling if the unclamped proportional value exceeds `current` (growing),
else floor, and clamping is applied after rounding. -/
def specDesiredCapacity (minCapacity maxCapacity : Int) (target : ℚ)
    (metric : ℚ) (current : Int) : Int :=
  let prop : ℚ := metric / target * (current : ℚ)
  let rounded : Int := if (current : ℚ) < prop then ⌈prop⌉ else ⌊prop⌋
  max minCapacity (min maxCapacity rounded)

/-! ### Concrete fixtures used by witnesses and counterexamples -/

/-- The cluster's writer instance, as in `autoscaling_test.go`. -/
def writerInst : DBInstance :=
  ⟨"writer-instance", "arn:w", "available", "db.r6g.large"⟩

/-- A schedule-owned reader. -/
def schedInst : DBInstance :=
  ⟨"sched-replica-1", "arn:r1", "available", "db.r6g.large"⟩

/-- A plain reader (tag assignment varies by environment). -/
def readerA : DBInstance :=
  ⟨"replica-a", "arn:a", "available", "db.r6g.large"⟩

/-- A second plain reader. -/
def readerB : DBInstance :=
  ⟨"replica-b", "arn:b", "available", "db.r6g.large"⟩

/-- Cluster membership: `writer-instance` is the writer. -/
def membersW : List DBClusterMember :=
  [⟨"writer-instance", true⟩, ⟨"sched-replica-1", false⟩]

/-- Schedule-mode configuration: bounds [1, 5], delta 2, live run. -/
def cfgSched : DocumentDB :=
  { clusterID := "test-cluster", minCapacity := 1, maxCapacity := 5,
    metricName := "CPUUtilization", targetValue := 50, scaleInCooldown := 0,
    scaleOutCooldown := 0, instanceType := "db.r6g.large", dryRun := false,
    scheduledScaling := true, scheduleNumberReplicas := 2 }

/-- Metric-mode configuration: bounds [1, 5], target 50, live run. -/
def cfgMetric : DocumentDB :=
  { cfgSched with scheduledScaling := false }

/-- Schedule-mode configuration with dry-run enabled. -/
def cfgSchedDry : DocumentDB :=
  { cfgSched with dryRun := true }

/-- Schedule-mode scale-in environment: one schedule-owned available
reader exists, so the invocation must remove it. -/
def envSchedIn : Env :=
  { instancesResult := .ok [writerInst, schedInst]
    membersResult := .ok membersW
    tagsOf := fun arn =>
      if arn = "arn:r1" then .ok [⟨"docdb-autoscaler-scheduler", "true"⟩]
      else .ok []
    metricOf := fun _ => .error "unused"
    tsStream := fun _ => "1234567890123456789"
    createResult := fun id => .ok ("arn:" ++ id)
    deleteResult := fun _ => .ok () }

/-- Schedule-mode scale-out environment: no schedule-owned readers. -/
def envSchedOut : Env :=
  { envSchedIn with tagsOf := fun _ => .ok [] }

/-- Metric-mode environment with two untagged readers, each reporting a
metric value of 10 (so desired capacity 1 < current capacity 2). -/
def envMetricNoTag : Env :=
  { instancesResult := .ok [writerInst, readerA, readerB]
    membersResult := .ok membersW
    tagsOf := fun _ => .ok []
    metricOf := fun _ => .ok 10
    tsStream := fun _ => "1234567890123456789"
    createResult := fun id => .ok ("arn:" ++ id)
    deleteResult := fun _ => .ok () }

/-- As `envMetricNoTag`, but `replica-a` carries the metric-mode tag, so a
metric scale-in removes it. -/
def envMetricTagged : Env :=
  { envMetricNoTag with
    tagsOf := fun arn =>
      if arn = "arn:a" then .ok [⟨"docdb-autoscaler-created", "true"⟩]
      else .ok [] }

/-- As `envMetricNoTag`, but the tag lookup for `replica-a` fails. -/
def envMetricTagErr : Env :=
  { envMetricNoTag with
    tagsOf := fun arn =>
      if arn = "arn:a" then .error "tag service down" else .ok [] }

/-- Schedule-mode environment where the tag lookup for the only reader
fails. -/
def envSchedTagErr : Env :=
  { envSchedIn with
    tagsOf := fun arn =>
      if arn = "arn:r1" then .error "tag service down" else .ok [] }

/-- An environment whose instance inventory call always fails, so every
reconciliation attempt dies on its very first directory call. -/
def envDescribeErr : Env :=
  { envSchedIn with instancesResult := .error "DescribeDBInstances failed" }

/-!
## Theorems

Helper lemmas first, then one named theorem per claim (with witnesses and
counterexamples as needed).
-/

/-! ### Retrying executor -/

/-- When every attempt fails, the retry loop runs out of fuel, having called
the action once per unit of fuel and slept after every failure. -/
theorem retryLoop_always_fails {α : Type} (action : Nat → Except String α)
    (msg : String) (hfail : ∀ i, ∃ e, action i = .error e) :
    ∀ (fuel attempt : Nat) (backoff : Int),
      retryLoop action msg fuel attempt backoff =
        ⟨.error msg, cappedBackoffSeq backoff fuel, fuel⟩ := by
  intro fuel
  induction fuel with
  | zero => intro attempt backoff; rfl
  | succ n ih =>
    intro attempt backoff
    obtain ⟨e, he⟩ := hfail attempt
    simp only [retryLoop, he, cappedBackoffSeq]
    rw [ih]

/-- C4 (amended): an action that fails on every call is invoked exactly
`maxRetries.toNat` times, the aggregate error is returned, and a backoff
sleep follows **every** failure — including the final one — starting at
`initialBackoff`, doubling, capped at 32. -/
theorem executeWithRetry_exhaustion {α : Type} (action : Nat → Except String α)
    (hfail : ∀ i, ∃ e, action i = .error e) (maxRetries initialBackoff : Int) :
    executeWithRetry action maxRetries initialBackoff =
      ⟨.error ("scaling action failed after " ++ toString maxRetries ++
        " attempts"),
       cappedBackoffSeq initialBackoff maxRetries.toNat, maxRetries.toNat⟩ :=
  retryLoop_always_fails action _ hfail _ _ _

/-- Witness for C4 (amended) at maxRetries = 3, initialBackoff = 1: three
calls, sleeps [1, 2, 4]. -/
theorem executeWithRetry_exhaustion_witness :
    executeWithRetry (fun _ => (.error "network timeout" : Except String Unit))
        3 1 =
      ⟨.error "scaling action failed after 3 attempts", [1, 2, 4], 3⟩ :=
  executeWithRetry_exhaustion _ (fun _ => ⟨"network timeout", rfl⟩) 3 1

/-- C4 (counterexample): with maxAttempts = 3 and initialBackoff = 1 the
always-failing run sleeps three times — after the last failure too — for a
total of 1 + 2 + 4 = 7 time-units, not the claimed 1 + 2 = 3. -/
theorem executeWithRetry_sleeps_counterexample :
    (executeWithRetry (fun _ => (.error "boom" : Except String Unit))
        3 1).sleeps = [1, 2, 4] ∧
    (executeWithRetry (fun _ => (.error "boom" : Except String Unit))
        3 1).sleeps.sum = 7 ∧
    ¬ ((7 : Int) = 1 + 2) :=
  ⟨rfl, rfl, by decide⟩

/-- C10: a non-positive `maxRetries` yields the aggregate error — with the
non-positive count spliced into the message — without invoking the action
and without sleeping. -/
theorem executeWithRetry_nonpositive {α : Type} (action : Nat → Except String α)
    (maxRetries initialBackoff : Int) (h : maxRetries ≤ 0) :
    executeWithRetry action maxRetries initialBackoff =
      ⟨.error ("scaling action failed after " ++ toString maxRetries ++
        " attempts"), [], 0⟩ := by
  unfold executeWithRetry
  rw [Int.toNat_of_nonpos h]
  rfl

/-- Witness for C10 at maxRetries = -2. -/
theorem executeWithRetry_nonpositive_witness :
    executeWithRetry (fun _ => (.error "boom" : Except String Unit)) (-2) 1 =
      ⟨.error "scaling action failed after -2 attempts", [], 0⟩ :=
  executeWithRetry_nonpositive _ (-2) 1 (by decide)

/-! ### Capacity calculator -/

/-- The clamp of `CalculateDesiredCapacity` keeps the result in
`[minCapacity, maxCapacity]` whenever the bounds are ordered. -/
theorem CalculateDesiredCapacity_bounds (d : DocumentDB)
    (h : d.minCapacity ≤ d.maxCapacity) (m : ℚ) (c : Int) :
    d.minCapacity ≤ CalculateDesiredCapacity d m c ∧
    CalculateDesiredCapacity d m c ≤ d.maxCapacity := by
  simp only [CalculateDesiredCapacity]
  split_ifs <;> omega

/-- `CalculateDesiredCapacity` agrees with the spec-side
`specDesiredCapacity` whenever the bounds are ordered. -/
theorem CalculateDesiredCapacity_eq_spec (d : DocumentDB)
    (h : d.minCapacity ≤ d.maxCapacity) (m : ℚ) (c : Int) :
    CalculateDesiredCapacity d m c =
      specDesiredCapacity d.minCapacity d.maxCapacity d.targetValue m c := by
  simp only [CalculateDesiredCapacity, specDesiredCapacity, max_def, min_def]
  split_ifs <;> omega

/-- C2: the calculator is exactly
`clamp(round(metric/target * current), min, max)` with ceiling on growth
and floor otherwise, its result lies in `[min, max]`, and the five literal
cases of the spec hold on the bounds-[1,5], target-50 configuration. -/
theorem calculateDesiredCapacity_correct :
    (∀ (d : DocumentDB) (m : ℚ) (c : Int),
        0 < d.targetValue → d.minCapacity ≤ d.maxCapacity →
        CalculateDesiredCapacity d m c =
          specDesiredCapacity d.minCapacity d.maxCapacity d.targetValue m c ∧
        d.minCapacity ≤ CalculateDesiredCapacity d m c ∧
        CalculateDesiredCapacity d m c ≤ d.maxCapacity) ∧
    CalculateDesiredCapacity cfgMetric 80 2 = 4 ∧
    CalculateDesiredCapacity cfgMetric 20 3 = 1 ∧
    CalculateDesiredCapacity cfgMetric 50 2 = 2 ∧
    CalculateDesiredCapacity cfgMetric 10 2 = 1 ∧
    CalculateDesiredCapacity cfgMetric 300 2 = 5 := by
  refine ⟨fun d m c _ hb => ⟨CalculateDesiredCapacity_eq_spec d hb m c,
    CalculateDesiredCapacity_bounds d hb m c⟩, ?_, ?_, ?_, ?_, ?_⟩
  · have hceil : (⌈(16/5 : ℚ)⌉ : Int) = 4 := by
      rw [Int.ceil_eq_iff] ; norm_num
    norm_num [CalculateDesiredCapacity, cfgMetric, cfgSched, hceil]
  · have hfloor : (⌊(6/5 : ℚ)⌋ : Int) = 1 := by
      rw [Int.floor_eq_iff] ; norm_num
    norm_num [CalculateDesiredCapacity, cfgMetric, cfgSched, hfloor]
  · have hfloor : (⌊(2 : ℚ)⌋ : Int) = 2 := by
      rw [Int.floor_eq_iff] ; norm_num
    norm_num [CalculateDesiredCapacity, cfgMetric, cfgSched, hfloor]
  · norm_num [CalculateDesiredCapacity, cfgMetric, cfgSched]
  · have hceil : (⌈(12 : ℚ)⌉ : Int) = 12 := by
      rw [Int.ceil_eq_iff] ; norm_num
    norm_num [CalculateDesiredCapacity, cfgMetric, cfgSched, hceil]

/-- Witness for C2 at the first literal case. -/
theorem calculateDesiredCapacity_correct_witness :
    CalculateDesiredCapacity cfgMetric 80 2 =
      specDesiredCapacity 1 5 50 80 2 ∧
    1 ≤ CalculateDesiredCapacity cfgMetric 80 2 ∧
    CalculateDesiredCapacity cfgMetric 80 2 ≤ 5 :=
  calculateDesiredCapacity_correct.1 cfgMetric 80 2 (by norm_num [cfgMetric, cfgSched])
    (by norm_num [cfgMetric, cfgSched])

/-! ### Identifier sanitization -/

/-- A letter is never a hyphen. -/
theorem isLetter_ne_hyphen {c : Char} (h : isLetter c = true) : c ≠ '-' := by
  intro hc
  subst hc
  exact absurd h (by decide)

/-- Letters are valid identifier characters. -/
theorem isLetter_isValid {c : Char} (h : isLetter c = true) :
    isValidDBInstanceIdentifierChar c = true := by
  simp only [isLetter, Bool.or_eq_true, Bool.and_eq_true] at h
  simp only [isValidDBInstanceIdentifierChar, Bool.or_eq_true, Bool.and_eq_true]
  tauto

/-- Replacement maps every character to a valid one. -/
theorem invalidToHyphen_valid (ch : Char) :
    isValidDBInstanceIdentifierChar
      (if isValidDBInstanceIdentifierChar ch then ch else '-') = true := by
  split_ifs with h
  · exact h
  · decide

/-- `trimLeftHyphens` does nothing to a list headed by a non-hyphen. -/
theorem trimLeftHyphens_cons_of_ne {c : Char} (l : List Char) (h : c ≠ '-') :
    trimLeftHyphens (c :: l) = c :: l := by
  simp [trimLeftHyphens, h]

/-- `trimRightHyphens` commutes with a non-hyphen head. -/
theorem trimRightHyphens_cons_of_ne {c : Char} (l : List Char) (h : c ≠ '-') :
    trimRightHyphens (c :: l) = c :: trimRightHyphens l := by
  simp only [trimRightHyphens]
  cases htr : trimRightHyphens l with
  | nil => simp [h]
  | cons a t => rfl

/-- `trimRightHyphens` never lengthens a list. -/
theorem trimRightHyphens_length (l : List Char) :
    (trimRightHyphens l).length ≤ l.length := by
  induction l with
  | nil => simp [trimRightHyphens]
  | cons c rest ih =>
    simp only [trimRightHyphens]
    cases htr : trimRightHyphens rest with
    | nil => split_ifs <;> simp
    | cons a t =>
      rw [htr] at ih
      simpa using Nat.succ_le_succ ih

/-- Every character surviving `trimRightHyphens` was in the input. -/
theorem trimRightHyphens_subset (l : List Char) :
    ∀ c ∈ trimRightHyphens l, c ∈ l := by
  induction l with
  | nil => simp [trimRightHyphens]
  | cons c rest ih =>
    simp only [trimRightHyphens]
    cases htr : trimRightHyphens rest with
    | nil =>
      split_ifs
      · simp
      · intro x hx
        simp only [List.mem_singleton] at hx
        simp [hx]
    | cons a t =>
      rw [htr] at ih
      intro x hx
      rcases List.mem_cons.1 hx with h | h
      · simp [h]
      · exact List.mem_cons_of_mem _ (ih x (htr ▸ h))

/-- `trimRightHyphens` never ends in a hyphen. -/
theorem trimRightHyphens_getLast?_ne (l : List Char) :
    (trimRightHyphens l).getLast? ≠ some '-' := by
  induction l with
  | nil => simp [trimRightHyphens]
  | cons c rest ih =>
    simp only [trimRightHyphens]
    cases htr : trimRightHyphens rest with
    | nil =>
      split_ifs with h
      · simp
      · simp [List.getLast?_singleton]
        intro hc
        exact h hc
    | cons a t =>
      rw [htr] at ih
      rw [List.getLast?_cons_cons]
      exact ih

/-- `replaceDoubleHyphen` commutes with a non-hyphen head. -/
theorem replaceDoubleHyphen_cons_of_ne {c : Char} (l : List Char)
    (h : c ≠ '-') :
    replaceDoubleHyphen (c :: l) = c :: replaceDoubleHyphen l := by
  cases l with
  | nil => rfl
  | cons c2 rest =>
    simp only [replaceDoubleHyphen]
    rw [if_neg]
    simp only [Bool.and_eq_true, decide_eq_true_eq, not_and]
    intro hc
    exact absurd hc h

/-- `replaceDoubleHyphen` never lengthens a list. -/
theorem replaceDoubleHyphen_length (l : List Char) :
    (replaceDoubleHyphen l).length ≤ l.length := by
  induction l using replaceDoubleHyphen.induct with
  | case1 => simp [replaceDoubleHyphen]
  | case2 c => simp [replaceDoubleHyphen]
  | case3 c1 c2 rest h ih =>
    simp only [replaceDoubleHyphen, if_pos h, List.length_cons]
    omega
  | case4 c1 c2 rest h ih =>
    simp only [replaceDoubleHyphen, if_neg h, List.length_cons]
    simpa using Nat.succ_le_succ ih

/-- Every character emitted by `replaceDoubleHyphen` was in the input. -/
theorem replaceDoubleHyphen_subset (l : List Char) :
    ∀ c ∈ replaceDoubleHyphen l, c ∈ l := by
  induction l using replaceDoubleHyphen.induct with
  | case1 => simp [replaceDoubleHyphen]
  | case2 c => simp [replaceDoubleHyphen]
  | case3 c1 c2 rest h ih =>
    simp only [replaceDoubleHyphen, if_pos h]
    intro x hx
    rcases List.mem_cons.1 hx with hx | hx
    · subst hx
      simp only [Bool.and_eq_true, decide_eq_true_eq] at h
      simp [h.1]
    · exact List.mem_cons_of_mem _ (List.mem_cons_of_mem _ (ih x hx))
  | case4 c1 c2 rest h ih =>
    simp only [replaceDoubleHyphen, if_neg h]
    intro x hx
    rcases List.mem_cons.1 hx with hx | hx
    · simp [hx]
    · exact List.mem_cons_of_mem _ (ih x hx)

/-- `sanitizeChars` on a letter-headed list: the head is kept, the length
never grows, every character is valid, and the result does not end in a
hyphen. -/
theorem sanitizeChars_of_letter_head {c : Char} (l : List Char)
    (hc : isLetter c = true) :
    ∃ t, sanitizeChars (c :: l) = c :: t ∧
      (c :: t).length ≤ (c :: l).length ∧
      (∀ ch ∈ c :: t, isValidDBInstanceIdentifierChar ch = true) ∧
      (c :: t).getLast? ≠ some '-' := by
  have hne : c ≠ '-' := isLetter_ne_hyphen hc
  have hvc : isValidDBInstanceIdentifierChar c = true := isLetter_isValid hc
  have hmap : (c :: l).map
      (fun ch => if isValidDBInstanceIdentifierChar ch then ch else '-') =
      c :: l.map (fun ch =>
        if isValidDBInstanceIdentifierChar ch then ch else '-') := by
    simp [hvc]
  set f : Char → Char :=
    fun ch => if isValidDBInstanceIdentifierChar ch then ch else '-' with hf
  have hsan : sanitizeChars (c :: l) =
      trimRightHyphens (c :: replaceDoubleHyphen (l.map f)) := by
    simp only [sanitizeChars, if_pos hc, hmap,
      replaceDoubleHyphen_cons_of_ne _ hne, trimLeftHyphens_cons_of_ne _ hne]
  refine ⟨trimRightHyphens (replaceDoubleHyphen (l.map f)), ?_, ?_, ?_, ?_⟩
  · rw [hsan, trimRightHyphens_cons_of_ne _ hne]
  · have h1 := trimRightHyphens_length (replaceDoubleHyphen (l.map f))
    have h2 := replaceDoubleHyphen_length (l.map f)
    simp only [List.length_cons, List.length_map] at *
    omega
  · intro ch hch
    rcases List.mem_cons.1 hch with h | h
    · subst h; exact hvc
    · have h1 := trimRightHyphens_subset _ ch h
      have h2 := replaceDoubleHyphen_subset _ ch h1
      rcases List.mem_map.1 h2 with ⟨y, _, hy⟩
      rw [← hy]
      exact invalidToHyphen_valid y
  · rw [← trimRightHyphens_cons_of_ne _ hne]
    exact trimRightHyphens_getLast?_ne _

/-- C6 (amended): for every cluster identifier that begins with a letter,
every suffix word and every timestamp, the generated instance identifier
keeps that letter as its first character, has at most 63 characters,
consists only of letters, digits and hyphens, and does not end in a
hyphen. (The claim's "no two consecutive hyphens" and its unconditional
63-character bound are refuted by `generatedIdentifier_counterexample`:
the single `ReplaceAll("--","-")` pass halves hyphen runs instead of
collapsing them, and prepending the letter `a` to a 63-character
truncation yields 64 characters.) -/
theorem generatedIdentifier_sanitized (clusterID suffixWord timestamp :
    List Char) (c : Char) (rest : List Char) (hhead : clusterID = c :: rest)
    (hc : isLetter c = true) :
    ∃ t, generateReplicaIdentifierChars clusterID suffixWord timestamp =
        c :: t ∧
      (c :: t).length ≤ 63 ∧
      (∀ ch ∈ c :: t, isValidDBInstanceIdentifierChar ch = true) ∧
      (c :: t).getLast? ≠ some '-' := by
  subst hhead
  have hne : c ≠ '-' := isLetter_ne_hyphen hc
  simp only [generateReplicaIdentifierChars, List.cons_append]
  set tail := rest ++ '-' :: (suffixWord ++ '-' ::
    timestamp.drop (timestamp.length - 9)) with htail
  by_cases hlen : 63 < (c :: tail).length
  · rw [if_pos hlen]
    have htake : (c :: tail).take 63 = c :: tail.take 62 := by
      rfl
    rw [htake, trimRightHyphens_cons_of_ne _ hne]
    obtain ⟨t, ht, hle, hval, hlast⟩ :=
      sanitizeChars_of_letter_head (trimRightHyphens (tail.take 62)) hc
    refine ⟨t, ht, ?_, hval, hlast⟩
    have h1 := trimRightHyphens_length (tail.take 62)
    have h2 : (tail.take 62).length ≤ 62 := by
      simp [List.length_take_le 62 tail]
    simp only [List.length_cons] at *
    omega
  · rw [if_neg hlen]
    obtain ⟨t, ht, hle, hval, hlast⟩ := sanitizeChars_of_letter_head tail hc
    refine ⟨t, ht, ?_, hval, hlast⟩
    simp only [List.length_cons, not_lt] at *
    omega

/-- Witness for C6 (amended) on cluster id `test-cluster`. -/
theorem generatedIdentifier_sanitized_witness :
    ∃ t, generateReplicaIdentifierChars "test-cluster".toList
        "reader".toList "1234567890123456789".toList = 't' :: t ∧
      ('t' :: t).length ≤ 63 ∧
      (∀ ch ∈ 't' :: t, isValidDBInstanceIdentifierChar ch = true) ∧
      ('t' :: t).getLast? ≠ some '-' :=
  generatedIdentifier_sanitized _ _ _ 't' "est-cluster".toList rfl (by decide)

/-- C6 (counterexample): a cluster id with a run of three underscores
produces an identifier that still contains consecutive hyphens (the
ReplaceAll pass is not iterated), and a 60-character cluster id starting
with a digit produces a 64-character identifier (the letter is prepended
*after* the 63-character truncation). -/
theorem generatedIdentifier_counterexample :
    hasConsecutiveHyphens (generateReplicaIdentifierChars "a___b".toList
      "reader".toList "1234567890123456789".toList) = true ∧
    (generateReplicaIdentifierChars
      ("1" ++ String.mk (List.replicate 59 'b')).toList
      "reader".toList "1234567890123456789".toList).length = 64 := by
  constructor
  · decide
  · decide

/-! ### Trace bookkeeping -/

/-- `createdIds` distributes over trace concatenation. -/
theorem createdIds_append (a b : List Event) :
    createdIds (a ++ b) = createdIds a ++ createdIds b := by
  induction a with
  | nil => rfl
  | cons e rest ih => cases e <;> simp [createdIds, ih]

/-- `deletedIds` distributes over trace concatenation. -/
theorem deletedIds_append (a b : List Event) :
    deletedIds (a ++ b) = deletedIds a ++ deletedIds b := by
  induction a with
  | nil => rfl
  | cons e rest ih => cases e <;> simp [deletedIds, ih]

/-- `anyFailureNote` distributes over trace concatenation. -/
theorem anyFailureNote_append (a b : List Event) :
    anyFailureNote (a ++ b) = (anyFailureNote a || anyFailureNote b) := by
  induction a with
  | nil => rfl
  | cons e rest ih => cases e <;> simp [anyFailureNote, ih]

/-- `applyEvents` composes over trace concatenation. -/
theorem applyEvents_append (ids : List String) (a b : List Event) :
    applyEvents ids (a ++ b) = applyEvents (applyEvents ids a) b := by
  induction a generalizing ids with
  | nil => rfl
  | cons e rest ih => cases e <;> simp [applyEvents, ih]

/-- A delete-free trace only appends its created identifiers. -/
theorem applyEvents_no_deletes (evs : List Event) (ids : List String)
    (h : deletedIds evs = []) :
    applyEvents ids evs = ids ++ createdIds evs := by
  induction evs generalizing ids with
  | nil => simp [applyEvents, createdIds]
  | cons e rest ih =>
    cases e with
    | createInstance cid id cls =>
      simp only [deletedIds] at h
      simp [applyEvents, createdIds, ih _ h]
    | deleteInstance id => simp [deletedIds] at h
    | addTags arn tags =>
      simp only [deletedIds] at h
      simp [applyEvents, createdIds, ih _ h]
    | scaleOutNote cid n =>
      simp only [deletedIds] at h
      simp [applyEvents, createdIds, ih _ h]
    | scaleInNote cid n =>
      simp only [deletedIds] at h
      simp [applyEvents, createdIds, ih _ h]
    | failureNote cid m a =>
      simp only [deletedIds] at h
      simp [applyEvents, createdIds, ih _ h]

/-- Reader count after appending new identifiers. -/
theorem readerCount_append (wid : String) (ids more : List String) :
    readerCount wid (ids ++ more) =
      readerCount wid ids + ((more.filter (· ≠ wid)).length : Int) := by
  simp [readerCount, List.filter_append]

/-- Appending identifiers that all differ from the writer raises the reader
count by exactly their number. -/
theorem readerCount_append_fresh (wid : String) (ids more : List String)
    (h : ∀ x ∈ more, x ≠ wid) :
    readerCount wid (ids ++ more) = readerCount wid ids + more.length := by
  rw [readerCount_append]
  congr 2
  rw [List.filter_eq_self.2]
  intro a ha
  simp [h a ha]

/-- A list without `x` is unchanged by filtering `x` out. -/
theorem filter_ne_of_not_mem (x : String) :
    ∀ (t : List String), x ∉ t → t.filter (· ≠ x) = t := by
  intro t hx
  induction t with
  | nil => rfl
  | cons a s ih =>
    simp only [List.mem_cons, not_or] at hx
    have ha : a ≠ x := fun h => hx.1 h.symm
    rw [List.filter_cons, if_pos (by simp [ha]), ih hx.2]

/-- Dropping one non-writer occurrence from a duplicate-free list lowers
the writer-excluded length by exactly one. -/
theorem length_filter_filter_ne (wid x : String) :
    ∀ (ids : List String), x ≠ wid → x ∈ ids → ids.Nodup →
    ((ids.filter (· ≠ x)).filter (· ≠ wid)).length + 1 =
      (ids.filter (· ≠ wid)).length := by
  intro ids
  induction ids with
  | nil => intro _ h; cases h
  | cons a t ih =>
    intro hx hmem hnd
    rcases List.nodup_cons.1 hnd with ⟨hnotmem, hndt⟩
    by_cases hax : a = x
    · subst hax
      rw [List.filter_cons, List.filter_cons]
      rw [if_neg (by simp), if_pos (by simp [hx])]
      rw [filter_ne_of_not_mem a t hnotmem]
      simp
    · have hmem' : x ∈ t := by
        rcases List.mem_cons.1 hmem with h | h
        · exact absurd h.symm hax
        · exact h
      have ihv := ih hx hmem' hndt
      rw [List.filter_cons, if_pos (by simp [show a ≠ x from hax])]
      by_cases haw : a = wid
      · rw [List.filter_cons, if_neg (by simp [haw]),
          List.filter_cons, if_neg (by simp [haw])]
        exact ihv
      · rw [List.filter_cons, if_pos (by simp [haw]),
          List.filter_cons, if_pos (by simp [haw])]
        simp only [List.length_cons]
        omega

/-- Removing one non-writer identifier that occurs in a duplicate-free list
lowers the reader count by exactly one. -/
theorem readerCount_erase (wid x : String) (ids : List String)
    (hx : x ≠ wid) (hmem : x ∈ ids) (hnd : ids.Nodup) :
    readerCount wid (ids.filter (· ≠ x)) = readerCount wid ids - 1 := by
  have h := length_filter_filter_ne wid x ids hx hmem hnd
  simp only [readerCount]
  omega

/-- The filtered-readers length seen through `map dbInstanceIdentifier`. -/
theorem readerCount_map (insts : List DBInstance) (wid : String) :
    readerCount wid (insts.map (·.dbInstanceIdentifier)) =
      ((insts.filter
        (fun i => i.dbInstanceIdentifier ≠ wid)).length : Int) := by
  simp only [readerCount]
  congr 1
  induction insts with
  | nil => rfl
  | cons a t ih =>
    rw [List.map_cons, List.filter_cons, List.filter_cons]
    by_cases h : a.dbInstanceIdentifier = wid
    · rw [if_neg (by simp [h]), if_neg (by simp [h]), ih]
    · rw [if_pos (by simp [h]), if_pos (by simp [h])]
      simp only [List.length_cons, ih]

/-! ### Provisioner lemmas -/

theorem GetReaderInstances_eq (d : DocumentDB) (env : Env)
    (insts : List DBInstance) (wid : String)
    (hi : env.instancesResult = .ok insts)
    (hw : GetWriterInstanceIdentifier d env = .ok wid) :
    GetReaderInstances d env =
      .ok (insts.filter (fun i => i.dbInstanceIdentifier ≠ wid)) := by
  simp only [GetReaderInstances, hi, hw]

theorem addReplicasLoop_ok (d : DocumentDB) (env : Env)
    (instanceClass suffixWord tagKey : String) :
    ∀ (fuel i : Nat) (evs : List Event),
      addReplicasLoop d env instanceClass suffixWord tagKey i fuel = .ok evs →
      deletedIds evs = [] ∧
      anyFailureNote evs = false ∧
      (d.dryRun = true → evs = []) ∧
      (d.dryRun = false → (createdIds evs).length = fuel) ∧
      (∀ id ∈ createdIds evs, ∃ j, id =
        makeReplicaIdentifier d.clusterID suffixWord (env.tsStream j)) := by
  intro fuel
  induction fuel with
  | zero =>
    intro i evs h
    simp only [addReplicasLoop] at h
    cases h
    simp [deletedIds, anyFailureNote, createdIds]
  | succ n ih =>
    intro i evs h
    simp only [addReplicasLoop] at h
    cases hdry : d.dryRun with
    | true =>
      rw [hdry] at h
      simp only [if_true] at h
      obtain ⟨h1, h2, h3, h4, h5⟩ := ih (i + 1) evs h
      exact ⟨h1, h2, fun _ => h3 hdry,
        fun hf => Bool.noConfusion hf, h5⟩
    | false =>
      rw [hdry] at h
      rw [if_neg (by simp)] at h
      cases hcr : env.createResult
          (makeReplicaIdentifier d.clusterID suffixWord (env.tsStream i)) with
      | error e => rw [hcr] at h; cases h
      | ok arn =>
        rw [hcr] at h
        cases hrec : addReplicasLoop d env instanceClass suffixWord tagKey
            (i + 1) n with
        | error e => rw [hrec] at h; cases h
        | ok rest =>
          rw [hrec] at h
          cases h
          obtain ⟨h1, h2, h3, h4, h5⟩ := ih (i + 1) rest hrec
          refine ⟨?_, ?_, ?_, ?_, ?_⟩
          · simp [deletedIds, h1]
          · simp [anyFailureNote, h2]
          · intro hcontra
            exact Bool.noConfusion hcontra
          · intro _; simp [createdIds, h4 hdry]
          · intro id hid
            simp only [createdIds, List.mem_cons] at hid
            rcases hid with hid | hid
            · exact ⟨i, hid⟩
            · exact h5 id hid

theorem AddReplicas_ok (d : DocumentDB) (env : Env) (replicasToAdd : Int)
    (evs : List Event) (h : AddReplicas d env replicasToAdd = .ok evs) :
    deletedIds evs = [] ∧
    anyFailureNote evs = false ∧
    (d.dryRun = true → evs = []) ∧
    (d.dryRun = false → (createdIds evs).length = replicasToAdd.toNat) ∧
    (∀ id ∈ createdIds evs, ∃ j, id =
      makeReplicaIdentifier d.clusterID "reader" (env.tsStream j)) := by
  simp only [AddReplicas] at h
  cases hwr : GetWriterInstance d env with
  | error e => rw [hwr] at h; cases h
  | ok writerInstance =>
    rw [hwr] at h
    exact addReplicasLoop_ok d env _ "reader" "docdb-autoscaler-created"
      replicasToAdd.toNat 0 evs h

theorem AddScheduledReplicas_ok (d : DocumentDB) (env : Env)
    (replicasToAdd : Int) (evs : List Event)
    (h : AddScheduledReplicas d env replicasToAdd = .ok evs) :
    deletedIds evs = [] ∧
    anyFailureNote evs = false ∧
    (d.dryRun = true → evs = []) ∧
    (d.dryRun = false → (createdIds evs).length = replicasToAdd.toNat) ∧
    (∀ id ∈ createdIds evs, ∃ j, id =
      makeReplicaIdentifier d.clusterID "scheduler" (env.tsStream j)) := by
  simp only [AddScheduledReplicas] at h
  by_cases hit : d.instanceType ≠ ""
  · rw [if_pos hit] at h
    exact addReplicasLoop_ok d env _ "scheduler" "docdb-autoscaler-scheduler"
      replicasToAdd.toNat 0 evs h
  · rw [if_neg hit] at h
    cases hwr : GetWriterInstance d env with
    | error e => rw [hwr] at h; cases h
    | ok writerInstance =>
      rw [hwr] at h
      exact addReplicasLoop_ok d env _ "scheduler" "docdb-autoscaler-scheduler"
        replicasToAdd.toNat 0 evs h

theorem findRemovalCandidate_spec (env : Env) (wid : String) :
    ∀ (insts : List DBInstance) (inst : DBInstance),
      findRemovalCandidate env wid insts = some inst →
      inst ∈ insts ∧ inst.dbInstanceIdentifier ≠ wid ∧
      inst.dbInstanceStatus = "available" ∧
      HasAutoscalerTag env inst = .ok true := by
  intro insts
  induction insts with
  | nil => intro inst h; cases h
  | cons a t ih =>
    intro inst h
    simp only [findRemovalCandidate] at h
    by_cases h1 : a.dbInstanceIdentifier = wid
    · rw [if_pos h1] at h
      obtain ⟨hm, h2, h3, h4⟩ := ih inst h
      exact ⟨List.mem_cons_of_mem _ hm, h2, h3, h4⟩
    · rw [if_neg h1] at h
      cases htag : HasAutoscalerTag env a with
      | error e =>
        rw [htag] at h
        obtain ⟨hm, h2, h3, h4⟩ := ih inst h
        exact ⟨List.mem_cons_of_mem _ hm, h2, h3, h4⟩
      | ok b =>
        rw [htag] at h
        simp only [] at h
        by_cases h2 : a.dbInstanceStatus ≠ "available"
        · rw [if_pos h2] at h
          obtain ⟨hm, h3, h4, h5⟩ := ih inst h
          exact ⟨List.mem_cons_of_mem _ hm, h3, h4, h5⟩
        · rw [if_neg h2] at h
          cases b with
          | true =>
            rw [if_pos rfl] at h
            cases h
            refine ⟨List.mem_cons_self _ _, h1, not_not.1 h2, htag⟩
          | false =>
            rw [if_neg (by simp)] at h
            obtain ⟨hm, h3, h4, h5⟩ := ih inst h
            exact ⟨List.mem_cons_of_mem _ hm, h3, h4, h5⟩

theorem RemoveReplica_ok (d : DocumentDB) (env : Env)
    (insts : List DBInstance) (wid : String) (evs : List Event)
    (hi : env.instancesResult = .ok insts)
    (hw : GetWriterInstanceIdentifier d env = .ok wid)
    (h : RemoveReplica d env = .ok evs) :
    evs = [] ∨
      ∃ inst, findRemovalCandidate env wid insts = some inst ∧
        d.dryRun = false ∧
        evs = [Event.deleteInstance inst.dbInstanceIdentifier] := by
  simp only [RemoveReplica, hi, hw] at h
  cases hfind : findRemovalCandidate env wid insts with
  | none =>
    rw [hfind] at h
    cases h
    exact Or.inl rfl
  | some inst =>
    rw [hfind] at h
    simp only [] at h
    cases hdry : d.dryRun with
    | true =>
      rw [hdry] at h
      rw [if_pos rfl] at h
      cases h
      exact Or.inl rfl
    | false =>
      rw [hdry] at h
      rw [if_neg (by simp)] at h
      cases hdel : env.deleteResult inst.dbInstanceIdentifier with
      | error e => rw [hdel] at h; cases h
      | ok u =>
        rw [hdel] at h
        cases h
        exact Or.inr ⟨inst, rfl, rfl, rfl⟩

theorem RemoveScheduledReplicas_ok (d : DocumentDB) (env : Env) :
    ∀ (l : List DBInstance) (evs : List Event),
      RemoveScheduledReplicas d env l = .ok evs →
      createdIds evs = [] ∧
      anyFailureNote evs = false ∧
      (d.dryRun = true → evs = []) ∧
      (∀ id ∈ deletedIds evs, ∃ inst, inst ∈ l ∧
        inst.dbInstanceIdentifier = id ∧
        inst.dbInstanceStatus = "available") := by
  intro l
  induction l with
  | nil =>
    intro evs h
    cases h
    simp [createdIds, anyFailureNote, deletedIds]
  | cons a t ih =>
    intro evs h
    simp only [RemoveScheduledReplicas] at h
    by_cases hst : a.dbInstanceStatus ≠ "available"
    · rw [if_pos hst] at h
      obtain ⟨h1, h2, h3, h4⟩ := ih evs h
      refine ⟨h1, h2, h3, fun id hid => ?_⟩
      obtain ⟨inst, hm, heq, hav⟩ := h4 id hid
      exact ⟨inst, List.mem_cons_of_mem _ hm, heq, hav⟩
    · rw [if_neg hst] at h
      cases hdry : d.dryRun with
      | true =>
        rw [hdry] at h
        rw [if_pos rfl] at h
        obtain ⟨h1, h2, h3, h4⟩ := ih evs h
        refine ⟨h1, h2, fun _ => h3 hdry, fun id hid => ?_⟩
        obtain ⟨inst, hm, heq, hav⟩ := h4 id hid
        exact ⟨inst, List.mem_cons_of_mem _ hm, heq, hav⟩
      | false =>
        rw [hdry] at h
        rw [if_neg (by simp)] at h
        cases hdel : env.deleteResult a.dbInstanceIdentifier with
        | error e => rw [hdel] at h; cases h
        | ok u =>
          rw [hdel] at h
          simp only [] at h
          cases hrec : RemoveScheduledReplicas d env t with
          | error e => rw [hrec] at h; cases h
          | ok rest =>
            rw [hrec] at h
            cases h
            obtain ⟨h1, h2, h3, h4⟩ := ih rest hrec
            refine ⟨by simp [createdIds, h1], by simp [anyFailureNote, h2],
              fun hcontra => Bool.noConfusion hcontra, fun id hid => ?_⟩
            simp only [deletedIds, List.mem_cons] at hid
            rcases hid with hid | hid
            · exact ⟨a, List.mem_cons_self _ _, hid.symm, not_not.1 hst⟩
            · obtain ⟨inst, hm, heq, hav⟩ := h4 id hid
              exact ⟨inst, List.mem_cons_of_mem _ hm, heq, hav⟩

theorem collectScheduled_ok (env : Env) :
    ∀ (l s : List DBInstance), collectScheduled env l = .ok s →
      ∀ inst ∈ s, inst ∈ l ∧ HasSchedulerTag env inst = .ok true := by
  intro l
  induction l with
  | nil =>
    intro s h
    cases h
    intro inst hm
    cases hm
  | cons a t ih =>
    intro s h
    simp only [collectScheduled] at h
    cases htag : HasSchedulerTag env a with
    | error e => rw [htag] at h; cases h
    | ok hasTag =>
      rw [htag] at h
      cases hrec : collectScheduled env t with
      | error e => rw [hrec] at h; cases h
      | ok rest =>
        rw [hrec] at h
        cases h
        intro inst hm
        cases hasTag with
        | true =>
          rw [if_pos rfl] at hm
          rcases List.mem_cons.1 hm with hm | hm
          · subst hm
            exact ⟨List.mem_cons_self _ _, htag⟩
          · obtain ⟨h1, h2⟩ := ih rest hrec inst hm
            exact ⟨List.mem_cons_of_mem _ h1, h2⟩
        | false =>
          rw [if_neg (by simp)] at hm
          obtain ⟨h1, h2⟩ := ih rest hrec inst hm
          exact ⟨List.mem_cons_of_mem _ h1, h2⟩

/-! ### Dry-run (C7) -/

/-- Under dry-run, `RemoveReplica` issues no delete call. -/
theorem RemoveReplica_dryRun (d : DocumentDB) (env : Env) (evs : List Event)
    (hdry : d.dryRun = true) (h : RemoveReplica d env = .ok evs) : evs = [] := by
  cases hi : env.instancesResult with
  | error e => simp only [RemoveReplica, hi] at h; cases h
  | ok insts =>
    cases hw : GetWriterInstanceIdentifier d env with
    | error e => simp only [RemoveReplica, hi, hw] at h; cases h
    | ok wid =>
      cases hfind : findRemovalCandidate env wid insts with
      | none =>
        simp only [RemoveReplica, hi, hw, hfind, Except.ok.injEq] at h
        exact h.symm
      | some inst =>
        simp only [RemoveReplica, hi, hw, hfind, hdry, if_true,
          Except.ok.injEq] at h
        exact h.symm

/-- C7: under dry-run, a completed reconciliation (either mode) issues no
mutating directory call: its trace holds no create, delete or tag-write
event. -/
theorem dryRun_no_mutations (d : DocumentDB) (env : Env) (evs : List Event)
    (hdry : d.dryRun = true) (hrun : ExecuteScalingAction d env = .ok evs) :
    evs.filter isMutatingDirectoryCall = [] := by
  simp only [ExecuteScalingAction] at hrun
  cases hsch : d.scheduledScaling with
  | true =>
    rw [hsch, if_pos rfl] at hrun
    cases hr : GetReaderInstances d env with
    | error e => simp only [ExecuteScheduledScalingAction, hr] at hrun; cases hrun
    | ok readers =>
      cases hcs : collectScheduled env readers with
      | error e =>
        simp only [ExecuteScheduledScalingAction, hr, hcs] at hrun; cases hrun
      | ok sched =>
        simp only [ExecuteScheduledScalingAction, hr, hcs] at hrun
        by_cases hpos : (0 : Int) < (sched.length : Int)
        · rw [if_pos hpos] at hrun
          cases hrm : RemoveScheduledReplicas d env sched with
          | error e => rw [hrm] at hrun; cases hrun
          | ok evs1 =>
            rw [hrm] at hrun
            cases hrun
            have h3 := (RemoveScheduledReplicas_ok d env sched evs1 hrm).2.2.1 hdry
            subst h3
            rfl
        · rw [if_neg hpos] at hrun
          cases hdelta : scheduledScaleOutDelta d (readers.length : Int) with
          | none => rw [hdelta] at hrun; cases hrun; rfl
          | some t =>
            rw [hdelta] at hrun
            simp only [] at hrun
            cases hadd : AddScheduledReplicas d env t with
            | error e => rw [hadd] at hrun; cases hrun
            | ok evs2 =>
              rw [hadd] at hrun
              cases hrun
              have h3 := (AddScheduledReplicas_ok d env t evs2 hadd).2.2.1 hdry
              subst h3
              rfl
  | false =>
    rw [hsch, if_neg (by simp)] at hrun
    cases hm : GetCurrentMetricValue d env with
    | error e =>
      simp only [ExecuteMetricBasedScalingAction, hm] at hrun; cases hrun
    | ok m =>
      cases hc : GetCurrentCapacity d env with
      | error e =>
        simp only [ExecuteMetricBasedScalingAction, hm, hc] at hrun; cases hrun
      | ok cur =>
        simp only [ExecuteMetricBasedScalingAction, hm, hc] at hrun
        split at hrun
        · split at hrun
          · cases hrun
          · next evs2 heq =>
            cases hrun
            have h3 := (AddReplicas_ok d env _ evs2 heq).2.2.1 hdry
            subst h3
            rfl
        · split at hrun
          · split at hrun
            · cases hrun
            · next evs2 heq =>
              cases hrun
              have h3 := RemoveReplica_dryRun d env evs2 hdry heq
              subst h3
              rfl
          · cases hrun
            rfl


/-- Witness for C7: a dry-run scheduled scale-out records only the
notification. -/
theorem dryRun_no_mutations_witness :
    [Event.scaleOutNote "test-cluster" 2].filter isMutatingDirectoryCall = [] :=
  dryRun_no_mutations cfgSchedDry envSchedOut
    [Event.scaleOutNote "test-cluster" 2] rfl rfl

/-! ### Ownership isolation (C3) -/

/-- C3: every identifier a completed reconciliation deletes belongs to an
`available` instance of the cluster that is not the writer and whose
ownership tag matches the invocation's mode (`docdb-autoscaler-scheduler`
in schedule mode, `docdb-autoscaler-created` in metric mode); and — as
long as the writer's name is not one of the freshly generated identifiers —
no create call carries the writer's identifier either. -/
theorem deletions_respect_ownership (d : DocumentDB) (env : Env)
    (insts : List DBInstance) (wid : String) (evs : List Event)
    (hi : env.instancesResult = .ok insts)
    (hw : GetWriterInstanceIdentifier d env = .ok wid)
    (hfreshR : ∀ j, makeReplicaIdentifier d.clusterID "reader"
      (env.tsStream j) ≠ wid)
    (hfreshS : ∀ j, makeReplicaIdentifier d.clusterID "scheduler"
      (env.tsStream j) ≠ wid)
    (hrun : ExecuteScalingAction d env = .ok evs) :
    (∀ id ∈ deletedIds evs, id ≠ wid ∧ ∃ inst, inst ∈ insts ∧
      inst.dbInstanceIdentifier = id ∧ inst.dbInstanceStatus = "available" ∧
      (if d.scheduledScaling then HasSchedulerTag env inst = .ok true
       else HasAutoscalerTag env inst = .ok true)) ∧
    (∀ id ∈ createdIds evs, id ≠ wid) := by
  simp only [ExecuteScalingAction] at hrun
  cases hsch : d.scheduledScaling with
  | true =>
    rw [hsch, if_pos rfl] at hrun
    simp only [hsch, if_pos rfl]
    cases hr : GetReaderInstances d env with
    | error e => simp only [ExecuteScheduledScalingAction, hr] at hrun; cases hrun
    | ok readers =>
      have hreq : readers =
          insts.filter (fun i => i.dbInstanceIdentifier ≠ wid) := by
        rw [GetReaderInstances_eq d env insts wid hi hw] at hr
        exact (Except.ok.inj hr).symm
      cases hcs : collectScheduled env readers with
      | error e =>
        simp only [ExecuteScheduledScalingAction, hr, hcs] at hrun; cases hrun
      | ok sched =>
        simp only [ExecuteScheduledScalingAction, hr, hcs] at hrun
        by_cases hpos : (0 : Int) < (sched.length : Int)
        · rw [if_pos hpos] at hrun
          cases hrm : RemoveScheduledReplicas d env sched with
          | error e => rw [hrm] at hrun; cases hrun
          | ok evs1 =>
            rw [hrm] at hrun
            cases hrun
            obtain ⟨hcr, _, _, hdel⟩ :=
              RemoveScheduledReplicas_ok d env sched evs1 hrm
            constructor
            · intro id hid
              rw [deletedIds_append] at hid
              simp only [deletedIds, List.append_nil] at hid
              obtain ⟨inst, hmem, heq, hav⟩ := hdel id hid
              obtain ⟨hmemr, htag⟩ := collectScheduled_ok env readers sched hcs
                inst hmem
              rw [hreq] at hmemr
              have hmf := List.mem_filter.1 hmemr
              refine ⟨?_, inst, hmf.1, heq, hav, htag⟩
              intro hcontra
              have := hmf.2
              rw [heq, hcontra] at this
              simp at this
            · intro id hid
              rw [createdIds_append] at hid
              simp only [createdIds, List.append_nil, hcr] at hid
              cases hid
        · rw [if_neg hpos] at hrun
          cases hdelta : scheduledScaleOutDelta d (readers.length : Int) with
          | none =>
            rw [hdelta] at hrun
            cases hrun
            exact ⟨fun id hid => absurd hid (by simp [deletedIds]),
              fun id hid => absurd hid (by simp [createdIds])⟩
          | some t =>
            rw [hdelta] at hrun
            simp only [] at hrun
            cases hadd : AddScheduledReplicas d env t with
            | error e => rw [hadd] at hrun; cases hrun
            | ok evs2 =>
              rw [hadd] at hrun
              cases hrun
              obtain ⟨hdl, _, _, _, hform⟩ :=
                AddScheduledReplicas_ok d env t evs2 hadd
              constructor
              · intro id hid
                rw [deletedIds_append] at hid
                simp only [deletedIds, List.append_nil, hdl] at hid
                cases hid
              · intro id hid
                rw [createdIds_append] at hid
                simp only [createdIds, List.append_nil] at hid
                obtain ⟨j, hj⟩ := hform id hid
                exact hj ▸ hfreshS j
  | false =>
    rw [hsch, if_neg (by simp)] at hrun
    simp only [Bool.false_eq_true, if_false]
    cases hm : GetCurrentMetricValue d env with
    | error e =>
      simp only [ExecuteMetricBasedScalingAction, hm] at hrun; cases hrun
    | ok m =>
      cases hc : GetCurrentCapacity d env with
      | error e =>
        simp only [ExecuteMetricBasedScalingAction, hm, hc] at hrun; cases hrun
      | ok cur =>
        simp only [ExecuteMetricBasedScalingAction, hm, hc] at hrun
        split at hrun
        · split at hrun
          · cases hrun
          · next evs2 heq =>
            cases hrun
            obtain ⟨hdl, _, _, _, hform⟩ := AddReplicas_ok d env _ evs2 heq
            constructor
            · intro id hid
              rw [deletedIds_append] at hid
              simp only [deletedIds, List.append_nil, hdl] at hid
              cases hid
            · intro id hid
              rw [createdIds_append] at hid
              simp only [createdIds, List.append_nil] at hid
              obtain ⟨j, hj⟩ := hform id hid
              exact hj ▸ hfreshR j
        · split at hrun
          · split at hrun
            · cases hrun
            · next evs2 heq =>
              cases hrun
              rcases RemoveReplica_ok d env insts wid evs2 hi hw heq with
                hnil | ⟨inst, hfind, hdryf, hevs⟩
              · subst hnil
                exact ⟨fun id hid => absurd hid (by simp [deletedIds]),
                  fun id hid => absurd hid (by simp [createdIds])⟩
              · subst hevs
                obtain ⟨hmem, hne, hav, htag⟩ :=
                  findRemovalCandidate_spec env wid insts inst hfind
                constructor
                · intro id hid
                  simp only [deletedIds_append, deletedIds, List.append_nil,
                    List.mem_singleton] at hid
                  subst hid
                  exact ⟨hne, inst, hmem, rfl, hav, htag⟩
                · intro id hid
                  simp only [createdIds_append, createdIds,
                    List.append_nil] at hid
                  cases hid
          · cases hrun
            exact ⟨fun id hid => absurd hid (by simp [deletedIds]),
              fun id hid => absurd hid (by simp [createdIds])⟩


/-- Witness for C3 on the schedule-mode scale-in environment. -/
theorem deletions_respect_ownership_witness :
    (∀ id ∈ deletedIds [Event.deleteInstance "sched-replica-1",
        Event.scaleInNote "test-cluster" 1],
      id ≠ "writer-instance" ∧ ∃ inst, inst ∈ [writerInst, schedInst] ∧
        inst.dbInstanceIdentifier = id ∧
        inst.dbInstanceStatus = "available" ∧
        (if cfgSched.scheduledScaling then
          HasSchedulerTag envSchedIn inst = .ok true
         else HasAutoscalerTag envSchedIn inst = .ok true)) ∧
    (∀ id ∈ createdIds [Event.deleteInstance "sched-replica-1",
        Event.scaleInNote "test-cluster" 1], id ≠ "writer-instance") :=
  deletions_respect_ownership cfgSched envSchedIn [writerInst, schedInst]
    "writer-instance" _ rfl rfl
    (fun j => by
      show makeReplicaIdentifier "test-cluster" "reader"
        "1234567890123456789" ≠ "writer-instance"
      decide)
    (fun j => by
      show makeReplicaIdentifier "test-cluster" "scheduler"
        "1234567890123456789" ≠ "writer-instance"
      decide) rfl

/-! ### Failure notifications (C9) -/

/-- `RemoveReplica` never calls the notifier's failure entry point. -/
theorem RemoveReplica_no_failureNote (d : DocumentDB) (env : Env)
    (evs : List Event) (h : RemoveReplica d env = .ok evs) :
    anyFailureNote evs = false := by
  cases hi : env.instancesResult with
  | error e => simp only [RemoveReplica, hi] at h; cases h
  | ok insts =>
    cases hw : GetWriterInstanceIdentifier d env with
    | error e => simp only [RemoveReplica, hi, hw] at h; cases h
    | ok wid =>
      rcases RemoveReplica_ok d env insts wid evs hi hw h with
        hnil | ⟨inst, _, _, hevs⟩
      · subst hnil; rfl
      · subst hevs; rfl

/-- C9 (amended): when every attempt fails, the Retrying Executor returns
only the aggregate error — and no reconciliation trace ever contains a
`SendFailureNotification` call, so no failure notification is emitted on
exhaustion (or ever): the engine never invokes that notifier entry
point. -/
theorem no_failure_notification :
    (∀ {α : Type} (action : Nat → Except String α)
        (maxRetries initialBackoff : Int),
      (∀ i, ∃ e, action i = .error e) →
      (executeWithRetry action maxRetries initialBackoff).result =
        .error ("scaling action failed after " ++ toString maxRetries ++
          " attempts")) ∧
    (∀ (d : DocumentDB) (env : Env) (evs : List Event),
      ExecuteScalingAction d env = .ok evs → anyFailureNote evs = false) := by
  constructor
  · intro α action maxRetries initialBackoff hfail
    rw [executeWithRetry_exhaustion action hfail maxRetries initialBackoff]
  · intro d env evs hrun
    simp only [ExecuteScalingAction] at hrun
    cases hsch : d.scheduledScaling with
    | true =>
      rw [hsch, if_pos rfl] at hrun
      cases hr : GetReaderInstances d env with
      | error e =>
        simp only [ExecuteScheduledScalingAction, hr] at hrun; cases hrun
      | ok readers =>
        cases hcs : collectScheduled env readers with
        | error e =>
          simp only [ExecuteScheduledScalingAction, hr, hcs] at hrun
          cases hrun
        | ok sched =>
          simp only [ExecuteScheduledScalingAction, hr, hcs] at hrun
          by_cases hpos : (0 : Int) < (sched.length : Int)
          · rw [if_pos hpos] at hrun
            cases hrm : RemoveScheduledReplicas d env sched with
            | error e => rw [hrm] at hrun; cases hrun
            | ok evs1 =>
              rw [hrm] at hrun
              cases hrun
              have h2 := (RemoveScheduledReplicas_ok d env sched evs1 hrm).2.1
              rw [anyFailureNote_append, h2]
              rfl
          · rw [if_neg hpos] at hrun
            cases hdelta : scheduledScaleOutDelta d (readers.length : Int) with
            | none => rw [hdelta] at hrun; cases hrun; rfl
            | some t =>
              rw [hdelta] at hrun
              simp only [] at hrun
              cases hadd : AddScheduledReplicas d env t with
              | error e => rw [hadd] at hrun; cases hrun
              | ok evs2 =>
                rw [hadd] at hrun
                cases hrun
                have h2 := (AddScheduledReplicas_ok d env t evs2 hadd).2.1
                rw [anyFailureNote_append, h2]
                rfl
    | false =>
      rw [hsch, if_neg (by simp)] at hrun
      cases hm : GetCurrentMetricValue d env with
      | error e =>
        simp only [ExecuteMetricBasedScalingAction, hm] at hrun; cases hrun
      | ok m =>
        cases hc : GetCurrentCapacity d env with
        | error e =>
          simp only [ExecuteMetricBasedScalingAction, hm, hc] at hrun
          cases hrun
        | ok cur =>
          simp only [ExecuteMetricBasedScalingAction, hm, hc] at hrun
          split at hrun
          · split at hrun
            · cases hrun
            · next evs2 heq =>
              cases hrun
              have h2 := (AddReplicas_ok d env _ evs2 heq).2.1
              rw [anyFailureNote_append, h2]
              rfl
          · split at hrun
            · split at hrun
              · cases hrun
              · next evs2 heq =>
                cases hrun
                have h2 := RemoveReplica_no_failureNote d env evs2 heq
                rw [anyFailureNote_append, h2]
                rfl
            · cases hrun
              rfl

/-- Witness for C9 (amended). -/
theorem no_failure_notification_witness :
    (executeWithRetry (fun _ => ExecuteScalingAction cfgSched envDescribeErr)
      3 1).result = .error "scaling action failed after 3 attempts" ∧
    anyFailureNote [Event.deleteInstance "sched-replica-1",
      Event.scaleInNote "test-cluster" 1] = false :=
  ⟨no_failure_notification.1 _ 3 1
    (fun _ => ⟨"DescribeDBInstances failed", rfl⟩),
   no_failure_notification.2 cfgSched envSchedIn _ rfl⟩

/-- C9 (counterexample): a reconciliation whose every attempt dies on the
first directory call exhausts 3 retries; the invocation's outcome is the
aggregate error alone: no failure notification (and no other call) is
emitted to the Notifier — `SendFailureNotification` has no caller in the
engine. -/
theorem exhaustion_no_failure_note_counterexample :
    (processScaling cfgSched envDescribeErr none 3 1).2.2.result =
      .error "scaling action failed after 3 attempts" ∧
    (processScaling cfgSched envDescribeErr none 3 1).2.2.calls = 3 ∧
    ExecuteScalingAction cfgSched envDescribeErr =
      .error "DescribeDBInstances failed" ∧
    emittedEvents (processScaling cfgSched envDescribeErr none 3 1).2.2 = [] :=
  ⟨rfl, rfl, rfl, rfl⟩

/-! ### Tag-read failures (C8) -/

/-- C8 (amended): a tag-read failure is propagated as the invocation's
error in the schedule-mode path, but in the metric-mode removal path a
node whose tag lookup fails is skipped (never selected, failure not
surfaced): the removal candidate always has a *successful* positive tag
lookup. -/
theorem tagError_propagation_asymmetry :
    (∀ (d : DocumentDB) (env : Env) (readers : List DBInstance) (e : String),
      GetReaderInstances d env = .ok readers →
      collectScheduled env readers = .error e →
      ExecuteScheduledScalingAction d env = .error e) ∧
    (∀ (env : Env) (wid : String) (insts : List DBInstance)
        (inst : DBInstance),
      findRemovalCandidate env wid insts = some inst →
      HasAutoscalerTag env inst = .ok true) := by
  constructor
  · intro d env readers e hr hcs
    simp only [ExecuteScheduledScalingAction, hr, hcs]
  · intro env wid insts inst h
    exact (findRemovalCandidate_spec env wid insts inst h).2.2.2

/-- Witness for C8 (amended). -/
theorem tagError_propagation_asymmetry_witness :
    ExecuteScheduledScalingAction cfgSched envSchedTagErr =
      .error "tag service down" ∧
    HasAutoscalerTag envMetricTagged readerA = .ok true :=
  ⟨tagError_propagation_asymmetry.1 cfgSched envSchedTagErr
      [schedInst] "tag service down" rfl rfl,
   tagError_propagation_asymmetry.2 envMetricTagged "writer-instance"
      [writerInst, readerA, readerB] readerA rfl⟩

/-! ### Capacity preservation (C1) -/

/-- A scale-out notification does not change the directory. -/
theorem applyEvents_scaleOutNote (ids : List String) (cid : String) (n : Int) :
    applyEvents ids [Event.scaleOutNote cid n] = ids := rfl

/-- A scale-in notification does not change the directory. -/
theorem applyEvents_scaleInNote (ids : List String) (cid : String) (n : Int) :
    applyEvents ids [Event.scaleInNote cid n] = ids := rfl

/-- When the scale-out branch decides to add `t` replicas to `L` readers,
the resulting reader count stays within the (ordered) capacity bounds,
provided `L` itself was within them. -/
theorem scheduledScaleOutDelta_bounds (d : DocumentDB) (L t : Int)
    (hmm : d.minCapacity ≤ d.maxCapacity) (hlo : d.minCapacity ≤ L)
    (hhi : L ≤ d.maxCapacity) (h : scheduledScaleOutDelta d L = some t) :
    d.minCapacity ≤ L + t.toNat ∧ L + t.toNat ≤ d.maxCapacity := by
  simp only [scheduledScaleOutDelta] at h
  by_cases hA : d.maxCapacity < L + d.scheduleNumberReplicas
  · rw [if_pos hA] at h
    by_cases hB : d.maxCapacity - L ≤ 0
    · rw [if_pos ⟨hA, hB⟩] at h
      cases h
    · rw [if_neg (fun hand => hB hand.2)] at h
      by_cases hC : L + d.scheduleNumberReplicas < d.minCapacity
      · rw [if_pos hC] at h
        cases h
        constructor <;> omega
      · rw [if_neg hC] at h
        cases h
        constructor <;> omega
  · rw [if_neg hA] at h
    rw [if_neg (fun hand => hA hand.1)] at h
    by_cases hC : L + d.scheduleNumberReplicas < d.minCapacity
    · rw [if_pos hC] at h
      cases h
      constructor <;> omega
    · rw [if_neg hC] at h
      cases h
      constructor <;> omega

/-- C1 (amended): a completed metric-mode reconciliation — and a completed
scheduled-mode reconciliation that found no schedule-owned reader — leaves
the reader count within `[minCapacity, maxCapacity]` whenever it started
there (ordered bounds, duplicate-free instance list, generated identifiers
distinct from the writer's). The scheduled-mode scale-in case is excluded:
it removes all schedule-owned nodes with no minimum-capacity check and can
leave the count below `minCapacity`
(`scheduled_scale_in_below_min_counterexample`). -/
theorem reconciliation_preserves_bounds (d : DocumentDB) (env : Env)
    (insts : List DBInstance) (wid : String) (evs : List Event)
    (hi : env.instancesResult = .ok insts)
    (hw : GetWriterInstanceIdentifier d env = .ok wid)
    (hnd : (insts.map (·.dbInstanceIdentifier)).Nodup)
    (hmm : d.minCapacity ≤ d.maxCapacity)
    (hfreshR : ∀ j, makeReplicaIdentifier d.clusterID "reader"
      (env.tsStream j) ≠ wid)
    (hfreshS : ∀ j, makeReplicaIdentifier d.clusterID "scheduler"
      (env.tsStream j) ≠ wid)
    (hsched : d.scheduledScaling = true →
      collectScheduled env
        (insts.filter (fun i => i.dbInstanceIdentifier ≠ wid)) = .ok [])
    (hrun : ExecuteScalingAction d env = .ok evs)
    (hlo : d.minCapacity ≤
      readerCount wid (insts.map (·.dbInstanceIdentifier)))
    (hhi : readerCount wid (insts.map (·.dbInstanceIdentifier)) ≤
      d.maxCapacity) :
    d.minCapacity ≤ readerCount wid
      (applyEvents (insts.map (·.dbInstanceIdentifier)) evs) ∧
    readerCount wid (applyEvents (insts.map (·.dbInstanceIdentifier)) evs) ≤
      d.maxCapacity := by
  set ids := insts.map (·.dbInstanceIdentifier) with hids
  simp only [ExecuteScalingAction] at hrun
  cases hsch : d.scheduledScaling with
  | true =>
    rw [hsch, if_pos rfl] at hrun
    cases hr : GetReaderInstances d env with
    | error e =>
      simp only [ExecuteScheduledScalingAction, hr] at hrun; cases hrun
    | ok readers =>
      have hreq : readers =
          insts.filter (fun i => i.dbInstanceIdentifier ≠ wid) := by
        rw [GetReaderInstances_eq d env insts wid hi hw] at hr
        exact (Except.ok.inj hr).symm
      have hcs : collectScheduled env readers = .ok [] := by
        rw [hreq]; exact hsched hsch
      simp only [ExecuteScheduledScalingAction, hr, hcs] at hrun
      rw [if_neg (by norm_num)] at hrun
      cases hdelta : scheduledScaleOutDelta d (readers.length : Int) with
      | none =>
        rw [hdelta] at hrun
        cases hrun
        exact ⟨hlo, hhi⟩
      | some t =>
        rw [hdelta] at hrun
        simp only [] at hrun
        cases hadd : AddScheduledReplicas d env t with
        | error e => rw [hadd] at hrun; cases hrun
        | ok evs2 =>
          rw [hadd] at hrun
          cases hrun
          obtain ⟨hdl, _, hdryE, hlen, hform⟩ :=
            AddScheduledReplicas_ok d env t evs2 hadd
          have hbefore : readerCount wid ids = (readers.length : Int) := by
            rw [hids, readerCount_map, hreq]
          rw [applyEvents_append, applyEvents_scaleOutNote]
          rw [applyEvents_no_deletes evs2 ids hdl]
          cases hdry : d.dryRun with
          | true =>
            rw [hdryE hdry]
            simp only [createdIds, List.append_nil]
            exact ⟨hlo, hhi⟩
          | false =>
            have hfresh2 : ∀ x ∈ createdIds evs2, x ≠ wid := by
              intro x hx
              obtain ⟨j, hj⟩ := hform x hx
              exact hj ▸ hfreshS j
            have hbounds := scheduledScaleOutDelta_bounds d
              (readers.length : Int) t hmm (hbefore ▸ hlo) (hbefore ▸ hhi)
              hdelta
            rw [readerCount_append_fresh wid ids _ hfresh2, hlen hdry,
              hbefore]
            exact hbounds
  | false =>
    rw [hsch, if_neg (by simp)] at hrun
    cases hm : GetCurrentMetricValue d env with
    | error e =>
      simp only [ExecuteMetricBasedScalingAction, hm] at hrun; cases hrun
    | ok m =>
      cases hc : GetCurrentCapacity d env with
      | error e =>
        simp only [ExecuteMetricBasedScalingAction, hm, hc] at hrun
        cases hrun
      | ok cur =>
        have hcur : cur = readerCount wid ids := by
          simp only [GetCurrentCapacity,
            GetReaderInstances_eq d env insts wid hi hw,
            Except.ok.injEq] at hc
          rw [hids, readerCount_map]
          exact hc.symm
        obtain ⟨hdb1, hdb2⟩ := CalculateDesiredCapacity_bounds d hmm m cur
        simp only [ExecuteMetricBasedScalingAction, hm, hc] at hrun
        split at hrun
        · rename_i hcond
          split at hrun
          · cases hrun
          · next evs2 heq =>
            cases hrun
            obtain ⟨hdl, _, hdryE, hlen, hform⟩ :=
              AddReplicas_ok d env _ evs2 heq
            rw [applyEvents_append, applyEvents_scaleOutNote]
            rw [applyEvents_no_deletes evs2 ids hdl]
            cases hdry : d.dryRun with
            | true =>
              rw [hdryE hdry]
              simp only [createdIds, List.append_nil]
              exact ⟨hlo, hhi⟩
            | false =>
              have hfresh2 : ∀ x ∈ createdIds evs2, x ≠ wid := by
                intro x hx
                obtain ⟨j, hj⟩ := hform x hx
                exact hj ▸ hfreshR j
              rw [readerCount_append_fresh wid ids _ hfresh2, hlen hdry]
              constructor <;> omega
        · split at hrun
          · rename_i hcond2
            split at hrun
            · cases hrun
            · next evs2 heq =>
              cases hrun
              rcases RemoveReplica_ok d env insts wid evs2 hi hw heq with
                hnil | ⟨inst, hfind, hdryf, hevs⟩
              · subst hnil
                rw [List.nil_append, applyEvents_scaleInNote]
                exact ⟨hlo, hhi⟩
              · subst hevs
                obtain ⟨hmem, hne, hav, htag⟩ :=
                  findRemovalCandidate_spec env wid insts inst hfind
                rw [applyEvents_append, applyEvents_scaleInNote]
                have happ : applyEvents ids
                    [Event.deleteInstance inst.dbInstanceIdentifier] =
                    ids.filter (· ≠ inst.dbInstanceIdentifier) := rfl
                rw [happ, readerCount_erase wid inst.dbInstanceIdentifier ids
                  hne (hids ▸ List.mem_map_of_mem _ hmem) hnd]
                constructor <;> omega
          · cases hrun
            exact ⟨hlo, hhi⟩


/-- Witness for C1 (amended) on the schedule-mode scale-out environment:
1 reader in bounds [1,5] before, 3 readers after. -/
theorem reconciliation_preserves_bounds_witness :
    (1 : Int) ≤ readerCount "writer-instance"
      (applyEvents (([writerInst, schedInst] :
          List DBInstance).map (·.dbInstanceIdentifier))
        [Event.createInstance "test-cluster"
            "test-cluster-scheduler-123456789" "db.r6g.large",
          Event.addTags "arn:test-cluster-scheduler-123456789"
            [⟨"docdb-autoscaler-scheduler", "true"⟩],
          Event.createInstance "test-cluster"
            "test-cluster-scheduler-123456789" "db.r6g.large",
          Event.addTags "arn:test-cluster-scheduler-123456789"
            [⟨"docdb-autoscaler-scheduler", "true"⟩],
          Event.scaleOutNote "test-cluster" 2]) ∧
    readerCount "writer-instance"
      (applyEvents (([writerInst, schedInst] :
          List DBInstance).map (·.dbInstanceIdentifier))
        [Event.createInstance "test-cluster"
            "test-cluster-scheduler-123456789" "db.r6g.large",
          Event.addTags "arn:test-cluster-scheduler-123456789"
            [⟨"docdb-autoscaler-scheduler", "true"⟩],
          Event.createInstance "test-cluster"
            "test-cluster-scheduler-123456789" "db.r6g.large",
          Event.addTags "arn:test-cluster-scheduler-123456789"
            [⟨"docdb-autoscaler-scheduler", "true"⟩],
          Event.scaleOutNote "test-cluster" 2]) ≤ 5 :=
  reconciliation_preserves_bounds cfgSched envSchedOut
    [writerInst, schedInst] "writer-instance" _ rfl rfl (by decide)
    (by decide)
    (fun j => by
      show makeReplicaIdentifier "test-cluster" "reader"
        "1234567890123456789" ≠ "writer-instance"
      decide)
    (fun j => by
      show makeReplicaIdentifier "test-cluster" "scheduler"
        "1234567890123456789" ≠ "writer-instance"
      decide)
    (fun _ => rfl) rfl (by decide) (by decide)

/-- C1 (counterexample): with bounds [1, 5] and exactly one reader — a
schedule-owned available one — the scheduled reconciliation removes it,
leaving 0 readers, strictly below `minCapacity = 1`. -/
theorem scheduled_scale_in_below_min_counterexample :
    cfgSched.minCapacity = 1 ∧ cfgSched.maxCapacity = 5 ∧
    (1 : Int) ≤ readerCount "writer-instance"
      ["writer-instance", "sched-replica-1"] ∧
    readerCount "writer-instance"
      ["writer-instance", "sched-replica-1"] ≤ 5 ∧
    ExecuteScalingAction cfgSched envSchedIn =
      .ok [Event.deleteInstance "sched-replica-1",
        Event.scaleInNote "test-cluster" 1] ∧
    readerCount "writer-instance"
      (applyEvents ["writer-instance", "sched-replica-1"]
        [Event.deleteInstance "sched-replica-1",
         Event.scaleInNote "test-cluster" 1]) = 0 ∧
    ¬ ((1 : Int) ≤ 0) :=
  ⟨rfl, rfl, by decide, by decide, rfl, by decide, by decide⟩


/-! ### Metric-mode scale-in (C5) -/

/-- A successful `RemoveReplica` issues either no call or exactly one
delete call. -/
theorem RemoveReplica_shape (d : DocumentDB) (env : Env) (evs : List Event)
    (h : RemoveReplica d env = .ok evs) :
    evs = [] ∨ ∃ x, evs = [Event.deleteInstance x] := by
  cases hi : env.instancesResult with
  | error e => simp only [RemoveReplica, hi] at h; cases h
  | ok insts =>
    cases hw : GetWriterInstanceIdentifier d env with
    | error e => simp only [RemoveReplica, hi, hw] at h; cases h
    | ok wid =>
      rcases RemoveReplica_ok d env insts wid evs hi hw h with
        hnil | ⟨inst, _, _, hevs⟩
      · exact Or.inl hnil
      · exact Or.inr ⟨_, hevs⟩

/-- C5 (amended): when desired capacity is strictly below current
capacity, the metric reconciliation runs `RemoveReplica` once and sends a
scale-in notification reporting one removed replica — but it deletes *at
most* one node: exactly one when an eligible (available, metric-owned)
candidate exists and dry-run is off, and zero otherwise, the count-1
notification being sent either way
(`metric_scale_in_zero_removed_counterexample`). -/
theorem metric_scale_in_at_most_one (d : DocumentDB) (env : Env)
    (evs : List Event) (m : ℚ) (cur : Int)
    (hm : GetCurrentMetricValue d env = .ok m)
    (hc : GetCurrentCapacity d env = .ok cur)
    (hlt : CalculateDesiredCapacity d m cur < cur)
    (hrun : ExecuteMetricBasedScalingAction d env = .ok evs) :
    ∃ rmEvs, RemoveReplica d env = .ok rmEvs ∧
      evs = rmEvs ++ [Event.scaleInNote d.clusterID 1] ∧
      (deletedIds evs).length ≤ 1 ∧
      (∀ (insts : List DBInstance) (wid : String) (inst : DBInstance),
        env.instancesResult = .ok insts →
        GetWriterInstanceIdentifier d env = .ok wid →
        findRemovalCandidate env wid insts = some inst →
        d.dryRun = false →
        rmEvs = [Event.deleteInstance inst.dbInstanceIdentifier]) := by
  simp only [ExecuteMetricBasedScalingAction, hm, hc] at hrun
  rw [if_neg (by omega)] at hrun
  rw [if_pos hlt] at hrun
  cases hrr : RemoveReplica d env with
  | error e => rw [hrr] at hrun; cases hrun
  | ok rmEvs =>
    rw [hrr] at hrun
    cases hrun
    refine ⟨rmEvs, rfl, rfl, ?_, ?_⟩
    · rcases RemoveReplica_shape d env rmEvs hrr with hnil | ⟨x, hx⟩
      · subst hnil; simp [deletedIds_append, deletedIds]
      · subst hx; simp [deletedIds_append, deletedIds]
    · intro insts wid inst hi hw hfind hdryf
      simp only [RemoveReplica, hi, hw, hfind, hdryf] at hrr
      rw [if_neg (by simp)] at hrr
      cases hdel : env.deleteResult inst.dbInstanceIdentifier with
      | error e => rw [hdel] at hrr; cases hrr
      | ok u => rw [hdel] at hrr; exact (Except.ok.inj hrr).symm

/-- Witness for C5 (amended): two readers, `replica-a` metric-owned,
metric 10 against target 50 gives desired 1 < current 2; exactly
`replica-a` is deleted and a count-1 scale-in notification is sent. -/
theorem metric_scale_in_at_most_one_witness :
    ∃ rmEvs, RemoveReplica cfgMetric envMetricTagged = .ok rmEvs ∧
      [Event.deleteInstance "replica-a",
        Event.scaleInNote "test-cluster" 1] =
        rmEvs ++ [Event.scaleInNote cfgMetric.clusterID 1] ∧
      (deletedIds [Event.deleteInstance "replica-a",
        Event.scaleInNote "test-cluster" 1]).length ≤ 1 ∧
      (∀ (insts : List DBInstance) (wid : String) (inst : DBInstance),
        envMetricTagged.instancesResult = .ok insts →
        GetWriterInstanceIdentifier cfgMetric envMetricTagged = .ok wid →
        findRemovalCandidate envMetricTagged wid insts = some inst →
        cfgMetric.dryRun = false →
        rmEvs = [Event.deleteInstance inst.dbInstanceIdentifier]) := by
  have hm : GetCurrentMetricValue cfgMetric envMetricTagged = .ok 10 := by
    have hr : GetReaderInstances cfgMetric envMetricTagged =
        .ok [readerA, readerB] := rfl
    simp only [GetCurrentMetricValue, hr]
    norm_num [sumReaderMetrics, envMetricTagged, envMetricNoTag, readerA,
      readerB]
  have hd : CalculateDesiredCapacity cfgMetric 10 2 = 1 := by
    norm_num [CalculateDesiredCapacity, cfgMetric, cfgSched]
  have hc : GetCurrentCapacity cfgMetric envMetricTagged = .ok 2 := rfl
  have hrr : RemoveReplica cfgMetric envMetricTagged =
      .ok [Event.deleteInstance "replica-a"] := rfl
  have hrun : ExecuteMetricBasedScalingAction cfgMetric envMetricTagged =
      .ok [Event.deleteInstance "replica-a",
        Event.scaleInNote "test-cluster" 1] := by
    simp only [ExecuteMetricBasedScalingAction, hm, hc, hd, hrr]
    norm_num [cfgMetric, cfgSched]
  exact metric_scale_in_at_most_one cfgMetric envMetricTagged _ 10 2 hm hc
    (by rw [hd]; norm_num) hrun

/-- C5 (counterexample): with two readers, neither metric-owned, and
desired capacity 1 < current 2, the reconciliation deletes nothing — yet
still sends the scale-in notification reporting one removed replica. -/
theorem metric_scale_in_zero_removed_counterexample :
    GetCurrentCapacity cfgMetric envMetricNoTag = .ok 2 ∧
    CalculateDesiredCapacity cfgMetric 10 2 = 1 ∧
    ExecuteMetricBasedScalingAction cfgMetric envMetricNoTag =
      .ok [Event.scaleInNote "test-cluster" 1] ∧
    deletedIds [Event.scaleInNote "test-cluster" 1] = [] := by
  have hm : GetCurrentMetricValue cfgMetric envMetricNoTag = .ok 10 := by
    have hr : GetReaderInstances cfgMetric envMetricNoTag =
        .ok [readerA, readerB] := rfl
    simp only [GetCurrentMetricValue, hr]
    norm_num [sumReaderMetrics, envMetricNoTag, readerA, readerB]
  have hd : CalculateDesiredCapacity cfgMetric 10 2 = 1 := by
    norm_num [CalculateDesiredCapacity, cfgMetric, cfgSched]
  have hc : GetCurrentCapacity cfgMetric envMetricNoTag = .ok 2 := rfl
  have hrr : RemoveReplica cfgMetric envMetricNoTag = .ok [] := rfl
  refine ⟨hc, hd, ?_, rfl⟩
  simp only [ExecuteMetricBasedScalingAction, hm, hc, hd, hrr]
  norm_num [cfgMetric, cfgSched]

/-- C8 (counterexample): the tag lookup of reader `replica-a` fails, yet
the metric-mode invocation completes successfully (the node is skipped and
the scale-in notification still sent): the tag-read failure is not
propagated as an error of the invocation. -/
theorem tagError_swallowed_counterexample :
    envMetricTagErr.tagsOf "arn:a" = .error "tag service down" ∧
    ExecuteMetricBasedScalingAction cfgMetric envMetricTagErr =
      .ok [Event.scaleInNote "test-cluster" 1] := by
  refine ⟨rfl, ?_⟩
  have hm : GetCurrentMetricValue cfgMetric envMetricTagErr = .ok 10 := by
    have hr : GetReaderInstances cfgMetric envMetricTagErr =
        .ok [readerA, readerB] := rfl
    simp only [GetCurrentMetricValue, hr]
    norm_num [sumReaderMetrics, envMetricTagErr, envMetricNoTag, readerA,
      readerB]
  have hd : CalculateDesiredCapacity cfgMetric 10 2 = 1 := by
    norm_num [CalculateDesiredCapacity, cfgMetric, cfgSched]
  have hc : GetCurrentCapacity cfgMetric envMetricTagErr = .ok 2 := rfl
  have hrr : RemoveReplica cfgMetric envMetricTagErr = .ok [] := rfl
  simp only [ExecuteMetricBasedScalingAction, hm, hc, hd, hrr]
  norm_num [cfgMetric, cfgSched]

end DocDBAutoscaler
